import Mathlib

/-!
Verification of the device-communication core of a Homebridge plugin for
Sonoff LAN-mode devices.

The TypeScript source is shallowly embedded here:

* `src/sonoffLanModeApi.ts` and `src/sonoffCrypto.ts` (the `encrypt` /
  `decrypt` functions): the cipher envelope.  Node's
  `crypto.createCipheriv('aes-128-cbc', key, iv)` is embedded as a full
  AES-128-CBC implementation with PKCS7 padding (FIPS-197), and
  `crypto.createHash('md5')` as a full MD5 implementation (RFC 1321).
  JavaScript strings passed to the cipher are modelled by their UTF-8 byte
  sequences (`List Nat`, every element `< 256`).
* `extractDataFromDnsService` (both the `sonoffLanModeApi.ts` variant and
  the `commonApi.ts` variant), together with a small model of JavaScript
  value semantics (string coercion, truthiness, and `JSON.parse`).
* `doApiCall` / `info` / `toggleSwitchStatus` / `setSwitchesStatus`, with
  the outgoing HTTP POST modelled as a returned request value.
* `EweLinkApi.getRegion`'s signing-string construction and
  `EweLinkApi.login`'s promise settlement, from `src/ewelinkApi.ts`.
* `StripPlatformAccessory.setOn` from `src/platformAccessory.ts` and
  `SonoffLanPlatform.createDeviceAccessory` from `src/platform.ts`.
-/

set_option maxRecDepth 10000

namespace SonoffLan

/-! ## GF(2^8) arithmetic (FIPS-197 §4)

Bytes are `Nat` values `< 256`; multiplication by `x` uses the AES
reduction polynomial `x^8 + x^4 + x^3 + x + 1` (`0x11b`). -/

/-- Multiply a field element by `x` (`02`) in GF(2^8). -/
def xtime (b : Nat) : Nat :=
  if b < 128 then 2 * b else ((2 * b) % 256) ^^^ 0x1b

/-- Multiplication by `03` in GF(2^8). -/
def mul3 (b : Nat) : Nat := xtime b ^^^ b

/-- Multiplication by `09` in GF(2^8). -/
def mul9 (b : Nat) : Nat := xtime (xtime (xtime b)) ^^^ b

/-- Multiplication by `0b` in GF(2^8). -/
def mul11 (b : Nat) : Nat := xtime (xtime (xtime b)) ^^^ xtime b ^^^ b

/-- Multiplication by `0d` in GF(2^8). -/
def mul13 (b : Nat) : Nat := xtime (xtime (xtime b)) ^^^ xtime (xtime b) ^^^ b

/-- Multiplication by `0e` in GF(2^8). -/
def mul14 (b : Nat) : Nat := xtime (xtime (xtime b)) ^^^ xtime (xtime b) ^^^ xtime b

/-- MixColumns output byte 0 of one column (FIPS-197 §5.1.3). -/
def mc0 (a b c d : Nat) : Nat := xtime a ^^^ mul3 b ^^^ c ^^^ d

/-- MixColumns output byte 1 of one column. -/
def mc1 (a b c d : Nat) : Nat := a ^^^ xtime b ^^^ mul3 c ^^^ d

/-- MixColumns output byte 2 of one column. -/
def mc2 (a b c d : Nat) : Nat := a ^^^ b ^^^ xtime c ^^^ mul3 d

/-- MixColumns output byte 3 of one column. -/
def mc3 (a b c d : Nat) : Nat := mul3 a ^^^ b ^^^ c ^^^ xtime d

/-- InvMixColumns output byte 0 of one column (FIPS-197 §5.3.3). -/
def ic0 (e f g h : Nat) : Nat := mul14 e ^^^ mul11 f ^^^ mul13 g ^^^ mul9 h

/-- InvMixColumns output byte 1 of one column. -/
def ic1 (e f g h : Nat) : Nat := mul9 e ^^^ mul14 f ^^^ mul11 g ^^^ mul13 h

/-- InvMixColumns output byte 2 of one column. -/
def ic2 (e f g h : Nat) : Nat := mul13 e ^^^ mul9 f ^^^ mul14 g ^^^ mul11 h

/-- InvMixColumns output byte 3 of one column. -/
def ic3 (e f g h : Nat) : Nat := mul11 e ^^^ mul13 f ^^^ mul9 g ^^^ mul14 h

/-! ## The AES S-box and block cipher (FIPS-197)

The S-box is computed from its definition: the multiplicative inverse in
GF(2^8) followed by the affine transformation.  The cipher below matches
the FIPS-197 appendix C.1 test vector. -/

/-- Russian-peasant step counter for GF(2^8) multiplication. -/
def gmulAux : Nat → Nat → Nat → Nat → Nat
  | 0, _, _, acc => acc
  | n + 1, a, b, acc =>
      gmulAux n (xtime a) (b / 2) (if b % 2 = 1 then acc ^^^ a else acc)

/-- Multiplication in GF(2^8). -/
def gmul (a b : Nat) : Nat := gmulAux 8 a b 0

/-- Squaring in GF(2^8). -/
def gsq (a : Nat) : Nat := gmul a a

/-- Multiplicative inverse in GF(2^8): `a ^ 254` by a square-and-multiply
chain (`0` maps to `0`). -/
def ginv (a : Nat) : Nat :=
  let a2 := gsq a
  let a4 := gsq a2
  let a8 := gsq a4
  let a16 := gsq a8
  let a32 := gsq a16
  let a64 := gsq a32
  let a128 := gsq a64
  gmul a128 (gmul a64 (gmul a32 (gmul a16 (gmul a8 (gmul a4 a2)))))

/-- Rotate an 8-bit value left by `n` bits. -/
def rotl8 (x n : Nat) : Nat := ((x * 2 ^ n) % 256) ||| (x / 2 ^ (8 - n))

/-- The AES S-box: field inverse followed by the affine transformation
(FIPS-197 §5.1.1). -/
def sbox (b : Nat) : Nat :=
  let i := ginv b
  i ^^^ rotl8 i 1 ^^^ rotl8 i 2 ^^^ rotl8 i 3 ^^^ rotl8 i 4 ^^^ 0x63

/-- The inverse AES S-box: inverse affine transformation followed by the
field inverse (FIPS-197 §5.3.2). -/
def invSbox (b : Nat) : Nat :=
  ginv (rotl8 b 1 ^^^ rotl8 b 3 ^^^ rotl8 b 6 ^^^ 0x05)

/-- All elements of a byte list are in range. -/
def GoodBytes (l : List Nat) : Prop := ∀ x ∈ l, x < 256

/-- SubBytes on a 16-byte state in column-major byte order. -/
def subBytes (s : List Nat) : List Nat := s.map sbox

def invSubBytes (s : List Nat) : List Nat := s.map invSbox

/-- ShiftRows on a 16-byte state in column-major byte order: byte
`r + 4*c` moves to column `(c - r) mod 4`. -/
def shiftRows : List Nat → List Nat
  | [a0, a1, a2, a3, a4, a5, a6, a7, a8, a9, a10, a11, a12, a13, a14, a15] =>
      [a0, a5, a10, a15, a4, a9, a14, a3, a8, a13, a2, a7, a12, a1, a6, a11]
  | l => l

def invShiftRows : List Nat → List Nat
  | [a0, a1, a2, a3, a4, a5, a6, a7, a8, a9, a10, a11, a12, a13, a14, a15] =>
      [a0, a13, a10, a7, a4, a1, a14, a11, a8, a5, a2, a15, a12, a9, a6, a3]
  | l => l

/-- MixColumns applied to each of the four columns of the state. -/
def mixColumns : List Nat → List Nat
  | [a0, a1, a2, a3, a4, a5, a6, a7, a8, a9, a10, a11, a12, a13, a14, a15] =>
      [mc0 a0 a1 a2 a3, mc1 a0 a1 a2 a3, mc2 a0 a1 a2 a3, mc3 a0 a1 a2 a3,
       mc0 a4 a5 a6 a7, mc1 a4 a5 a6 a7, mc2 a4 a5 a6 a7, mc3 a4 a5 a6 a7,
       mc0 a8 a9 a10 a11, mc1 a8 a9 a10 a11, mc2 a8 a9 a10 a11, mc3 a8 a9 a10 a11,
       mc0 a12 a13 a14 a15, mc1 a12 a13 a14 a15, mc2 a12 a13 a14 a15, mc3 a12 a13 a14 a15]
  | l => l

def invMixColumns : List Nat → List Nat
  | [a0, a1, a2, a3, a4, a5, a6, a7, a8, a9, a10, a11, a12, a13, a14, a15] =>
      [ic0 a0 a1 a2 a3, ic1 a0 a1 a2 a3, ic2 a0 a1 a2 a3, ic3 a0 a1 a2 a3,
       ic0 a4 a5 a6 a7, ic1 a4 a5 a6 a7, ic2 a4 a5 a6 a7, ic3 a4 a5 a6 a7,
       ic0 a8 a9 a10 a11, ic1 a8 a9 a10 a11, ic2 a8 a9 a10 a11, ic3 a8 a9 a10 a11,
       ic0 a12 a13 a14 a15, ic1 a12 a13 a14 a15, ic2 a12 a13 a14 a15, ic3 a12 a13 a14 a15]
  | l => l

/-- AddRoundKey: byte-wise xor of the state with the round key. -/
def addRoundKey (rk s : List Nat) : List Nat := List.zipWith (· ^^^ ·) s rk

/-- One AES-128 key-schedule step: derive round key `i+1` from round key
`i` with round constant `rc` (FIPS-197 §5.2, specialised to Nk = 4). -/
def nextRoundKey (rk : List Nat) (rc : Nat) : List Nat :=
  match rk with
  | [k0, k1, k2, k3, k4, k5, k6, k7, k8, k9, k10, k11, k12, k13, k14, k15] =>
      let t0 := sbox k13 ^^^ rc
      let t1 := sbox k14
      let t2 := sbox k15
      let t3 := sbox k12
      let n0 := k0 ^^^ t0
      let n1 := k1 ^^^ t1
      let n2 := k2 ^^^ t2
      let n3 := k3 ^^^ t3
      let n4 := k4 ^^^ n0
      let n5 := k5 ^^^ n1
      let n6 := k6 ^^^ n2
      let n7 := k7 ^^^ n3
      let n8 := k8 ^^^ n4
      let n9 := k9 ^^^ n5
      let n10 := k10 ^^^ n6
      let n11 := k11 ^^^ n7
      let n12 := k12 ^^^ n8
      let n13 := k13 ^^^ n9
      let n14 := k14 ^^^ n10
      let n15 := k15 ^^^ n11
      [n0, n1, n2, n3, n4, n5, n6, n7, n8, n9, n10, n11, n12, n13, n14, n15]
  | l => l

def roundKeysAux : Nat → List Nat → Nat → List (List Nat)
  | 0, rk, _ => [rk]
  | n + 1, rk, rc => rk :: roundKeysAux n (nextRoundKey rk rc) (xtime rc)

/-- The eleven AES-128 round keys derived from a 16-byte cipher key. -/
def roundKeys (key : List Nat) : List (List Nat) := roundKeysAux 10 key 1

def encRounds : List (List Nat) → List Nat → List Nat
  | [], s => s
  | [rk], s => addRoundKey rk (shiftRows (subBytes s))
  | rk :: rks, s => encRounds rks (addRoundKey rk (mixColumns (shiftRows (subBytes s))))

/-- AES-128 block encryption (FIPS-197 §5.1). -/
def aesEncryptBlock (key b : List Nat) : List Nat :=
  match roundKeys key with
  | rk0 :: rks => encRounds rks (addRoundKey rk0 b)
  | [] => b

def decRounds : List (List Nat) → List Nat → List Nat
  | [], s => s
  | [rk], s => invSubBytes (invShiftRows (addRoundKey rk s))
  | rk :: rks, s =>
      invSubBytes (invShiftRows (invMixColumns (addRoundKey rk (decRounds rks s))))

/-- AES-128 block decryption (FIPS-197 §5.3). -/
def aesDecryptBlock (key c : List Nat) : List Nat :=
  match roundKeys key with
  | rk0 :: rks => addRoundKey rk0 (decRounds rks c)
  | [] => c

/-! ## PKCS7 padding and CBC mode

Node's `createCipheriv('aes-128-cbc', ...)` applies PKCS7 padding by
default; `decipher.final()` validates and strips it, throwing on invalid
padding (modelled by `Option`). -/

def pkcs7pad (l : List Nat) : List Nat :=
  l ++ List.replicate (16 - l.length % 16) (16 - l.length % 16)

def pkcs7unpad (l : List Nat) : Option (List Nat) :=
  match l.getLast? with
  | none => none
  | some k =>
      if 1 ≤ k ∧ k ≤ 16 ∧ k ≤ l.length ∧ (l.drop (l.length - k)).all (· = k) = true then
        some (l.take (l.length - k))
      else none

/-- Split a byte list into 16-byte blocks. -/
def toBlocks (l : List Nat) : List (List Nat) :=
  if h : l = [] then [] else l.take 16 :: toBlocks (l.drop 16)
termination_by l.length
decreasing_by
  simp only [List.length_drop]
  have : 0 < l.length := List.length_pos.mpr h
  omega

/-- Byte-wise xor of two equal-length byte strings (CBC chaining). -/
def xorBytes (a b : List Nat) : List Nat := List.zipWith (· ^^^ ·) a b

def cbcEncBlocks (key : List Nat) : List Nat → List (List Nat) → List (List Nat)
  | _, [] => []
  | prev, b :: bs =>
      aesEncryptBlock key (xorBytes b prev)
        :: cbcEncBlocks key (aesEncryptBlock key (xorBytes b prev)) bs

def cbcDecBlocks (key : List Nat) : List Nat → List (List Nat) → List (List Nat)
  | _, [] => []
  | prev, c :: cs => xorBytes (aesDecryptBlock key c) prev :: cbcDecBlocks key c cs

/-- AES-128-CBC encryption with PKCS7 padding over whole byte strings. -/
def cbcEncrypt (key iv data : List Nat) : List Nat :=
  (cbcEncBlocks key iv (toBlocks (pkcs7pad data))).flatten

/-- AES-128-CBC decryption with PKCS7 unpadding over whole byte strings.
`none` models the exception Node throws on a wrong final block length or
bad padding. -/
def cbcDecrypt (key iv ct : List Nat) : Option (List Nat) :=
  if ct.length = 0 ∨ ct.length % 16 ≠ 0 then none
  else pkcs7unpad (cbcDecBlocks key iv (toBlocks ct)).flatten

/-! ## Base64 (the `Buffer` base64 codec used at the transport boundary)

`base64Decode` is strict: it accepts exactly the canonical four-character
groups that `base64Encode` produces.  (Node's `Buffer.from(s, 'base64')`
is lenient on malformed input; only well-formed input appears in the
properties proved here.) -/


def b64Char (n : Nat) : Char :=
  if n < 26 then Char.ofNat (65 + n)
  else if n < 52 then Char.ofNat (97 + (n - 26))
  else if n < 62 then Char.ofNat (48 + (n - 52))
  else if n = 62 then '+' else '/'

def b64Val (c : Char) : Option Nat :=
  if 65 ≤ c.toNat ∧ c.toNat ≤ 90 then some (c.toNat - 65)
  else if 97 ≤ c.toNat ∧ c.toNat ≤ 122 then some (c.toNat - 97 + 26)
  else if 48 ≤ c.toNat ∧ c.toNat ≤ 57 then some (c.toNat - 48 + 52)
  else if c = '+' then some 62
  else if c = '/' then some 63
  else none

def b64EncodeChars : List Nat → List Char
  | [] => []
  | [b0] => [b64Char (b0 / 4), b64Char (b0 % 4 * 16), '=', '=']
  | [b0, b1] =>
      [b64Char (b0 / 4), b64Char (b0 % 4 * 16 + b1 / 16), b64Char (b1 % 16 * 4), '=']
  | b0 :: b1 :: b2 :: rest =>
      b64Char (b0 / 4) :: b64Char (b0 % 4 * 16 + b1 / 16)
        :: b64Char (b1 % 16 * 4 + b2 / 64) :: b64Char (b2 % 64) :: b64EncodeChars rest

def base64Encode (l : List Nat) : String := String.mk (b64EncodeChars l)

def b64DecodeChars : List Char → Option (List Nat)
  | [] => some []
  | c0 :: c1 :: c2 :: c3 :: rest =>
      match b64Val c0, b64Val c1 with
      | some v0, some v1 =>
          if c2 = '=' ∧ c3 = '=' ∧ rest = [] then some [v0 * 4 + v1 / 16]
          else
            match b64Val c2 with
            | some v2 =>
                if c3 = '=' ∧ rest = [] then
                  some [v0 * 4 + v1 / 16, v1 % 16 * 16 + v2 / 4]
                else
                  match b64Val c3, b64DecodeChars rest with
                  | some v3, some tail =>
                      some ((v0 * 4 + v1 / 16) :: (v1 % 16 * 16 + v2 / 4)
                        :: (v2 % 4 * 64 + v3) :: tail)
                  | _, _ => none
            | none => none
      | _, _ => none
  | _ => none

def base64Decode (s : String) : Option (List Nat) := b64DecodeChars s.data

/-! ## MD5 (RFC 1321), embedding Node's `createHash('md5')`

The message is a byte list; the digest is the raw 16-byte little-endian
serialisation of the four state words.  The implementation matches the
RFC 1321 test vectors (for example `md5 [] = d41d8cd9...`). -/


def rotl32 (x n : Nat) : Nat :=
  ((x * 2 ^ n) % 4294967296) ||| (x % 4294967296 / 2 ^ (32 - n))

def add32 (a b : Nat) : Nat := (a + b) % 4294967296

def md5K : List Nat :=
  [0xd76aa478, 0xe8c7b756, 0x242070db, 0xc1bdceee,
   0xf57c0faf, 0x4787c62a, 0xa8304613, 0xfd469501,
   0x698098d8, 0x8b44f7af, 0xffff5bb1, 0x895cd7be,
   0x6b901122, 0xfd987193, 0xa679438e, 0x49b40821,
   0xf61e2562, 0xc040b340, 0x265e5a51, 0xe9b6c7aa,
   0xd62f105d, 0x02441453, 0xd8a1e681, 0xe7d3fbc8,
   0x21e1cde6, 0xc33707d6, 0xf4d50d87, 0x455a14ed,
   0xa9e3e905, 0xfcefa3f8, 0x676f02d9, 0x8d2a4c8a,
   0xfffa3942, 0x8771f681, 0x6d9d6122, 0xfde5380c,
   0xa4beea44, 0x4bdecfa9, 0xf6bb4b60, 0xbebfbc70,
   0x289b7ec6, 0xeaa127fa, 0xd4ef3085, 0x04881d05,
   0xd9d4d039, 0xe6db99e5, 0x1fa27cf8, 0xc4ac5665,
   0xf4292244, 0x432aff97, 0xab9423a7, 0xfc93a039,
   0x655b59c3, 0x8f0ccc92, 0xffeff47d, 0x85845dd1,
   0x6fa87e4f, 0xfe2ce6e0, 0xa3014314, 0x4e0811a1,
   0xf7537e82, 0xbd3af235, 0x2ad7d2bb, 0xeb86d391]

def md5S : List Nat :=
  [7, 12, 17, 22, 7, 12, 17, 22, 7, 12, 17, 22, 7, 12, 17, 22,
   5, 9, 14, 20, 5, 9, 14, 20, 5, 9, 14, 20, 5, 9, 14, 20,
   4, 11, 16, 23, 4, 11, 16, 23, 4, 11, 16, 23, 4, 11, 16, 23,
   6, 10, 15, 21, 6, 10, 15, 21, 6, 10, 15, 21, 6, 10, 15, 21]

def md5F (i b c d : Nat) : Nat :=
  if i < 16 then (b &&& c) ||| ((b ^^^ 0xffffffff) &&& d)
  else if i < 32 then (d &&& b) ||| ((d ^^^ 0xffffffff) &&& c)
  else if i < 48 then b ^^^ c ^^^ d
  else c ^^^ (b ||| (d ^^^ 0xffffffff))

def md5G (i : Nat) : Nat :=
  if i < 16 then i
  else if i < 32 then (5 * i + 1) % 16
  else if i < 48 then (3 * i + 5) % 16
  else (7 * i) % 16

def md5Compress (M : List Nat) (h : Nat × Nat × Nat × Nat) : Nat × Nat × Nat × Nat :=
  let r := (List.range 64).foldl
    (fun st i =>
      let a := st.1
      let b := st.2.1
      let c := st.2.2.1
      let d := st.2.2.2
      let f := add32 (add32 (add32 a (md5F i b c d)) (md5K.getD i 0))
        (M.getD (md5G i) 0)
      (d, add32 b (rotl32 f (md5S.getD i 0)), b, c))
    h
  (add32 h.1 r.1, add32 h.2.1 r.2.1, add32 h.2.2.1 r.2.2.1, add32 h.2.2.2 r.2.2.2)

def toLE4 (x : Nat) : List Nat :=
  [x % 256, x / 256 % 256, x / 65536 % 256, x / 16777216 % 256]

def toLE8 (x : Nat) : List Nat := toLE4 (x % 4294967296) ++ toLE4 (x / 4294967296)

def bytesToWords : List Nat → List Nat
  | b0 :: b1 :: b2 :: b3 :: rest =>
      (b0 + 256 * b1 + 65536 * b2 + 16777216 * b3) :: bytesToWords rest
  | _ => []

def md5Pad (m : List Nat) : List Nat :=
  m ++ [0x80] ++ List.replicate ((55 + 64 - m.length % 64) % 64) 0
    ++ toLE8 ((8 * m.length) % 18446744073709551616)

def wordChunks (l : List Nat) : List (List Nat) :=
  if h : l = [] then [] else l.take 16 :: wordChunks (l.drop 16)
termination_by l.length
decreasing_by
  simp only [List.length_drop]
  have : 0 < l.length := List.length_pos.mpr h
  omega

def md5 (m : List Nat) : List Nat :=
  let blocks := wordChunks (bytesToWords (md5Pad m))
  let r := blocks.foldl (fun st M => md5Compress M st)
    (0x67452301, 0xefcdab89, 0x98badcfe, 0x10325476)
  toLE4 r.1 ++ toLE4 r.2.1 ++ toLE4 r.2.2.1 ++ toLE4 r.2.2.2

/-! ## The cipher envelope from `src/sonoffLanModeApi.ts` / `src/sonoffCrypto.ts`

JavaScript strings handed to the cipher (`plainText`, `apiKey`) are
modelled by their UTF-8 byte sequences; base64-valued strings
(`encryptedData`, `iv`) stay Lean `String`s.  `decrypt` returns the
decrypted bytes (the source additionally re-decodes them as UTF-8 with
`plainText.toString('utf8')`, which inverts the UTF-8 encoding). -/

/-- A cipher context produced by Node's `crypto.createDecipheriv` /
`crypto.createCipheriv`.  For `'aes-128-cbc'` Node validates that the key
is exactly 16 bytes and the IV exactly 16 bytes and throws otherwise;
the failure is modelled by `none`. -/
structure Cipheriv where
  key : List Nat
  iv : List Nat

def createDecipheriv (alg : String) (key iv : List Nat) : Option Cipheriv :=
  if alg = "aes-128-cbc" ∧ key.length = 16 ∧ iv.length = 16 then
    some { key := key, iv := iv }
  else none

/-- Function `decrypt(encryptedData, apiKey, iv)`: the key is the raw MD5 digest of
the UTF-8 bytes of `apiKey`; `iv` and `encryptedData` are base64 strings;
the cipher is AES-128-CBC with PKCS7 padding. -/
def decrypt (encryptedData : String) (apiKey : List Nat) (iv : String) :
    Option (List Nat) :=
  match base64Decode iv, base64Decode encryptedData with
  | some ivBuffer, some cipherText =>
      match createDecipheriv "aes-128-cbc" (md5 apiKey) ivBuffer with
      | some ctx => cbcDecrypt ctx.key ctx.iv cipherText
      | none => none
  | _, _ => none

/-- The object returned by `encrypt`: ciphertext and IV buffers. -/
structure EncryptResult where
  data : List Nat
  iv : List Nat
deriving DecidableEq

/-- Function `encrypt(plainText, apiKey)`.  The fresh random 16-byte IV produced by
`crypto.randomBytes(16)` is passed in as the `iv` parameter (randomness is
external to this model).  The key is the raw MD5 digest of the UTF-8
bytes of `apiKey`; the cipher is AES-128-CBC with PKCS7 padding. -/
def encrypt (plainText apiKey iv : List Nat) : EncryptResult :=
  { data := cbcEncrypt (md5 apiKey) iv plainText, iv := iv }

/-- One hex digit as an ASCII byte (lower case, as Node's
`digest('hex')`). -/
def hexDigit (n : Nat) : Nat := if n < 10 then 48 + n else 87 + n

/-- The UTF-8 bytes of the lower-case hex string encoding of a byte
string: what keying the cipher with `digest('hex')` would supply. -/
def hexEncode (l : List Nat) : List Nat := (l.map (fun b => [hexDigit (b / 16), hexDigit (b % 16)])).flatten

/-! ## JSON and the JavaScript value model used by the extraction path -/


/-- Opening curly bracket character. -/
def lbraceChar : Char := Char.ofNat 123

/-- Closing curly bracket character. -/
def rbraceChar : Char := Char.ofNat 125

/-- A JSON value; number tokens keep their literal text. -/
inductive Json where
  | null : Json
  | bool (b : Bool) : Json
  | num (lit : String) : Json
  | str (s : String) : Json
  | arr (items : List Json) : Json
  | obj (fields : List (String × Json)) : Json

def isJsonWs (c : Char) : Bool := c = ' ' ∨ c = '\t' ∨ c = '\n' ∨ c = '\r'

def skipWs : List Char → List Char
  | [] => []
  | c :: rest => if isJsonWs c then skipWs rest else c :: rest

def isDigitChar (c : Char) : Bool := 48 ≤ c.toNat ∧ c.toNat ≤ 57

def isNumTokenChar (c : Char) : Bool :=
  isDigitChar c ∨ c = '-' ∨ c = '+' ∨ c = '.' ∨ c = 'e' ∨ c = 'E'

/-- Validate a JSON number literal: `-?(0|[1-9][0-9]*)(\.[0-9]+)?([eE][+-]?[0-9]+)?`
(leading-zero check relaxed to any digit string). -/
def validNumLit (cs : List Char) : Bool :=
  let afterSign := match cs with
    | '-' :: rest => rest
    | _ => cs
  let intDigits := afterSign.takeWhile isDigitChar
  let afterInt := afterSign.dropWhile isDigitChar
  let afterFrac :=
    match afterInt with
    | '.' :: rest =>
        if (rest.takeWhile isDigitChar).isEmpty then ['.']
        else rest.dropWhile isDigitChar
    | other => other
  let afterExp :=
    match afterFrac with
    | 'e' :: rest | 'E' :: rest =>
        let rest2 := match rest with
          | '+' :: r => r
          | '-' :: r => r
          | r => r
        if (rest2.takeWhile isDigitChar).isEmpty then ['e']
        else rest2.dropWhile isDigitChar
    | other => other
  ¬intDigits.isEmpty ∧ afterExp.isEmpty

def hexVal (c : Char) : Option Nat :=
  if 48 ≤ c.toNat ∧ c.toNat ≤ 57 then some (c.toNat - 48)
  else if 97 ≤ c.toNat ∧ c.toNat ≤ 102 then some (c.toNat - 87)
  else if 65 ≤ c.toNat ∧ c.toNat ≤ 70 then some (c.toNat - 55)
  else none

/-- Parse the remainder of a JSON string literal (after the opening
quote), handling the standard escapes. -/
def parseStrBody : Nat → List Char → List Char → Option (String × List Char)
  | 0, _, _ => none
  | _, _, [] => none
  | fuel + 1, acc, c :: rest =>
      if c = '"' then some (String.mk acc.reverse, rest)
      else if c = '\\' then
        match rest with
        | [] => none
        | e :: r2 =>
            if e = '"' then parseStrBody fuel ('"' :: acc) r2
            else if e = '\\' then parseStrBody fuel ('\\' :: acc) r2
            else if e = '/' then parseStrBody fuel ('/' :: acc) r2
            else if e = 'n' then parseStrBody fuel ('\n' :: acc) r2
            else if e = 't' then parseStrBody fuel ('\t' :: acc) r2
            else if e = 'r' then parseStrBody fuel ('\r' :: acc) r2
            else if e = 'b' then parseStrBody fuel (Char.ofNat 8 :: acc) r2
            else if e = 'f' then parseStrBody fuel (Char.ofNat 12 :: acc) r2
            else if e = 'u' then
              match r2 with
              | h1 :: h2 :: h3 :: h4 :: r3 =>
                  match hexVal h1, hexVal h2, hexVal h3, hexVal h4 with
                  | some v1, some v2, some v3, some v4 =>
                      parseStrBody fuel
                        (Char.ofNat (4096 * v1 + 256 * v2 + 16 * v3 + v4) :: acc) r3
                  | _, _, _, _ => none
              | _ => none
            else none
      else parseStrBody fuel (c :: acc) rest

mutual

/-- Parse one JSON value from the character stream. -/
def parseJsonAux : Nat → List Char → Option (Json × List Char)
  | 0, _ => none
  | fuel + 1, cs =>
      match skipWs cs with
      | [] => none
      | c :: rest =>
          if c = 'n' then
            match rest with
            | 'u' :: 'l' :: 'l' :: r => some (.null, r)
            | _ => none
          else if c = 't' then
            match rest with
            | 'r' :: 'u' :: 'e' :: r => some (.bool true, r)
            | _ => none
          else if c = 'f' then
            match rest with
            | 'a' :: 'l' :: 's' :: 'e' :: r => some (.bool false, r)
            | _ => none
          else if c = '"' then
            match parseStrBody (fuel + 1) [] rest with
            | some (s, r) => some (.str s, r)
            | none => none
          else if c = '[' then
            match skipWs rest with
            | ']' :: r => some (.arr [], r)
            | _ => parseArrayItems fuel rest []
          else if c = lbraceChar then
            match skipWs rest with
            | r1 =>
                if r1.head? = some rbraceChar then some (.obj [], r1.tail)
                else parseObjFields fuel rest []
          else if isNumTokenChar c then
            let tok := (c :: rest).takeWhile isNumTokenChar
            if validNumLit tok then
              some (.num (String.mk tok), (c :: rest).dropWhile isNumTokenChar)
            else none
          else none

/-- Parse `value (, value)* ]` for an array. -/
def parseArrayItems : Nat → List Char → List Json → Option (Json × List Char)
  | 0, _, _ => none
  | fuel + 1, cs, acc =>
      match parseJsonAux fuel cs with
      | none => none
      | some (j, r) =>
          match skipWs r with
          | ',' :: r2 => parseArrayItems fuel r2 (j :: acc)
          | ']' :: r2 => some (.arr (j :: acc).reverse, r2)
          | _ => none

/-- Parse `"key" : value (, "key" : value)* end-brace` for an object. -/
def parseObjFields : Nat → List Char → List (String × Json) →
    Option (Json × List Char)
  | 0, _, _ => none
  | fuel + 1, cs, acc =>
      match skipWs cs with
      | '"' :: r =>
          match parseStrBody (fuel + 1) [] r with
          | none => none
          | some (k, r1) =>
              match skipWs r1 with
              | ':' :: r2 =>
                  match parseJsonAux fuel r2 with
                  | none => none
                  | some (v, r3) =>
                      match skipWs r3 with
                      | ',' :: r4 => parseObjFields fuel r4 ((k, v) :: acc)
                      | r4 =>
                          if r4.head? = some rbraceChar then
                            some (.obj ((k, v) :: acc).reverse, r4.tail)
                          else none
              | _ => none
      | _ => none

end

/-- The effect of `JSON.parse` on a string: a parse of the whole input, or failure. -/
def parseJson (s : String) : Option Json :=
  match parseJsonAux (s.length + 1) s.data with
  | some (j, rest) => if skipWs rest = [] then some j else none
  | none => none

inductive TxtVal where
  | str (s : String)
  | bool (b : Bool)
deriving DecidableEq

/-- A JavaScript expression value flowing through
`extractDataFromDnsService`: a TXT attribute value or `undefined`. -/
inductive JsVal where
  | undefined
  | str (s : String)
  | bool (b : Bool)
deriving DecidableEq

/-- JavaScript `String(v)` / string coercion. -/
def jsToString : JsVal → String
  | .undefined => "undefined"
  | .str s => s
  | .bool true => "true"
  | .bool false => "false"

/-- JavaScript truthiness of the values above (`undefined`, `false` and
the empty string are falsy). -/
def jsTruthy : JsVal → Bool
  | .undefined => false
  | .str s => s ≠ ""
  | .bool b => b

/-- JavaScript `+` as used by `data1 += dataN` (string concatenation
after coercion). -/
def jsAdd (a b : JsVal) : JsVal := .str (jsToString a ++ jsToString b)

structure Address where
  host : String
  port : Nat
deriving DecidableEq

/-- The part of a `tinkerhub-mdns` `MDNSService` consumed by this
plugin: the service name, the TXT attribute map (an association list in
record order) and the resolved addresses. -/
structure MDNSService where
  name : String
  data : List (String × TxtVal)
  addresses : List Address

def svcLookup (service : MDNSService) (k : String) : Option TxtVal :=
  (service.data.find? (fun kv => kv.1 = k)).map (·.2)

/-- Test `service.data.has(k)`. -/
def svcHas (service : MDNSService) (k : String) : Bool :=
  (svcLookup service k).isSome

/-- Read `service.data.get(k)` as a JavaScript value (`undefined` when the key
is absent). -/
def svcGet (service : MDNSService) (k : String) : JsVal :=
  match svcLookup service k with
  | some (.str s) => .str s
  | some (.bool b) => .bool b
  | none => .undefined

/-- Structure `DeviceConfiguration` from `src/config.ts`.  `encrypted` stores the
truthiness of the `(get('encrypt') || false)` value, which is exactly how
`if (device.encrypted)` consumes it. -/
structure DeviceConfiguration where
  name : Option String
  deviceId : String
  deviceKey : Option String
  encrypted : Bool
  type : String
  service : MDNSService

/-- The `data1 += data2 ...` reassembly prefix of
`extractDataFromDnsService`: concatenate `data1`..`data4`, each later
field only when the previous one was present. -/
def assembleData (service : MDNSService) : JsVal :=
  let data1 := svcGet service "data1"
  if svcHas service "data2" then
    let d2 := jsAdd data1 (svcGet service "data2")
    if svcHas service "data3" then
      let d3 := jsAdd d2 (svcGet service "data3")
      if svcHas service "data4" then jsAdd d3 (svcGet service "data4") else d3
    else d2
  else data1

/-- Exceptions that the extraction path can raise. -/
inductive JsErr where
  | syntaxError
  | typeError
  | cryptoError
deriving DecidableEq

/-- Call `JSON.parse(v)`: coerce the argument to a string and parse it;
a parse failure is a thrown `SyntaxError`. -/
def jsParse (v : JsVal) : Except JsErr Json :=
  match parseJson (jsToString v) with
  | some j => .ok j
  | none => .error .syntaxError

def missingKeyMsg (service : MDNSService) : String :=
  "Missing api_key for encrypted device " ++ service.name

/-- Function `extractDataFromDnsService` from `src/sonoffLanModeApi.ts`,
parametrised by the cipher (`dec`, fixed to `decrypt` by the source; the
parameter lets theorems state that a branch never invokes it).  The
result is the JS return value (`none` for `undefined`) or a thrown
exception, paired with the `log.error` messages emitted. -/
def extractDataWith (dec : JsVal → String → JsVal → Except JsErr String)
    (service : MDNSService) (device : DeviceConfiguration) :
    Except JsErr (Option Json) × List String :=
  let data1 := assembleData service
  if device.encrypted then
    match device.deviceKey with
    | some key =>
        match dec data1 key (svcGet service "iv") with
        | .ok plain =>
            (if jsTruthy (.str plain) then (jsParse (.str plain)).map some
             else .ok none, [])
        | .error e => (.error e, [])
    | none => (.ok none, [missingKeyMsg service])
  else
    (if jsTruthy data1 then (jsParse data1).map some else .ok none, [])

/-- Function `extractDataFromDnsService` from `src/commonApi.ts` (the
`sonoffApi.ts` variant), which ends in an unguarded `JSON.parse(data)`. -/
def extractDataCommonWith (dec : JsVal → String → JsVal → Except JsErr String)
    (service : MDNSService) (device : DeviceConfiguration) :
    Except JsErr Json × List String :=
  let data1 := assembleData service
  if device.encrypted then
    match device.deviceKey with
    | some key =>
        match dec data1 key (svcGet service "iv") with
        | .ok plain => (jsParse (.str plain), [])
        | .error e => (.error e, [])
    | none => (jsParse .undefined, [missingKeyMsg service])
  else
    (jsParse data1, [])

/-! ## UTF-8 and the concrete cipher used by the extraction path -/

def utf8EncodeChar (c : Char) : List Nat :=
  let n := c.toNat
  if n < 128 then [n]
  else if n < 2048 then [192 + n / 64, 128 + n % 64]
  else if n < 65536 then [224 + n / 4096, 128 + n / 64 % 64, 128 + n % 64]
  else [240 + n / 262144, 128 + n / 4096 % 64, 128 + n / 64 % 64, 128 + n % 64]

/-- The UTF-8 byte sequence of a string (`Buffer.from(s, 'utf8')`). -/
def utf8Encode (s : String) : List Nat := (s.data.map utf8EncodeChar).flatten

def replacementChar : Char := Char.ofNat 0xFFFD

/-- UTF-8 decoding with U+FFFD replacement on malformed sequences
(`buffer.toString('utf8')`). -/
def utf8DecodeAux : Nat → List Nat → List Char
  | 0, _ => []
  | _, [] => []
  | fuel + 1, b :: rest =>
      if b < 128 then Char.ofNat b :: utf8DecodeAux fuel rest
      else if 192 ≤ b ∧ b < 224 then
        match rest with
        | b1 :: r1 =>
            if 128 ≤ b1 ∧ b1 < 192 then
              Char.ofNat ((b - 192) * 64 + (b1 - 128)) :: utf8DecodeAux fuel r1
            else replacementChar :: utf8DecodeAux fuel rest
        | [] => [replacementChar]
      else if 224 ≤ b ∧ b < 240 then
        match rest with
        | b1 :: b2 :: r2 =>
            if (128 ≤ b1 ∧ b1 < 192) ∧ (128 ≤ b2 ∧ b2 < 192) then
              Char.ofNat ((b - 224) * 4096 + (b1 - 128) * 64 + (b2 - 128))
                :: utf8DecodeAux fuel r2
            else replacementChar :: utf8DecodeAux fuel rest
        | _ => [replacementChar]
      else if 240 ≤ b ∧ b < 248 then
        match rest with
        | b1 :: b2 :: b3 :: r3 =>
            if (128 ≤ b1 ∧ b1 < 192) ∧ (128 ≤ b2 ∧ b2 < 192) ∧ (128 ≤ b3 ∧ b3 < 192) then
              Char.ofNat ((b - 240) * 262144 + (b1 - 128) * 4096 + (b2 - 128) * 64
                + (b3 - 128)) :: utf8DecodeAux fuel r3
            else replacementChar :: utf8DecodeAux fuel rest
        | _ => [replacementChar]
      else replacementChar :: utf8DecodeAux fuel rest

def utf8Decode (l : List Nat) : String := String.mk (utf8DecodeAux (l.length + 1) l)

/-- The concrete cipher invocation
`decrypt(data1, device.deviceKey, iv)` of the extraction path, with the
JavaScript-level conversions: non-string arguments throw a `TypeError`
in `Buffer.from`, a padding failure in `decipher.final()` throws, and the
decrypted bytes are re-decoded as UTF-8. -/
def decryptString (data : JsVal) (key : String) (iv : JsVal) : Except JsErr String :=
  match data, iv with
  | .str ds, .str ivs =>
      match decrypt ds (utf8Encode key) ivs with
      | some bytes => .ok (utf8Decode bytes)
      | none => .error .cryptoError
  | _, _ => .error .typeError

/-- Function `extractDataFromDnsService` from `src/sonoffLanModeApi.ts` with its
actual cipher. -/
def extractDataFromDnsService :=
  extractDataWith decryptString

/-- Function `extractDataFromDnsService` from `src/commonApi.ts` with its actual
cipher. -/
def extractDataFromDnsServiceCommon :=
  extractDataCommonWith decryptString

structure DeviceKeyConfiguration where
  name : Option String
  deviceId : String
  deviceKey : String

structure SonoffPlatformConfig where
  deviceKeys : Option (List DeviceKeyConfiguration)

/-- Method `SonoffLanPlatform.createDeviceAccessory` from `src/platform.ts`:
build the `DeviceConfiguration` from the discovery record, then add the
name and device key from a matching `deviceKeys` config entry. -/
def createDeviceAccessory (config : SonoffPlatformConfig)
    (service : MDNSService) : DeviceConfiguration :=
  let deviceConfiguration : DeviceConfiguration :=
    { name := none
      deviceId := jsToString (svcGet service "id")
      deviceKey := none
      encrypted := jsTruthy (svcGet service "encrypt")
      type := jsToString (svcGet service "type")
      service := service }
  match config.deviceKeys with
  | some keys =>
      match keys.find? (fun v => v.deviceId = deviceConfiguration.deviceId) with
      | some dk =>
          { deviceConfiguration with name := dk.name, deviceKey := some dk.deviceKey }
      | none => deviceConfiguration
  | none => deviceConfiguration

/-! ## Claims C3, C4 and C10: the discovery-record assembler -/

def svcC4 : MDNSService :=
  { name := "dev1",
    data := [("data1", .str "eyJz"), ("iv", .str "AAAAAAAAAAAAAAAAAAAAAA==")],
    addresses := [] }

def devC4 : DeviceConfiguration :=
  { name := none, deviceId := "100", deviceKey := none, encrypted := true,
    type := "plug", service := svcC4 }

def svcC3a : MDNSService :=
  { name := "devA", data := [("data1", .str "[1,2]")], addresses := [] }

def devC3a : DeviceConfiguration :=
  { name := none, deviceId := "a", deviceKey := none, encrypted := false,
    type := "plug", service := svcC3a }

def svcC3b : MDNSService :=
  { name := "devB", data := [("data1", .str "[1,"), ("data2", .str "2]")],
    addresses := [] }

def devC3b : DeviceConfiguration :=
  { name := none, deviceId := "b", deviceKey := none, encrypted := false,
    type := "plug", service := svcC3b }

def svcC10 : MDNSService :=
  { name := "devC", data := [("id", .str "100"), ("type", .str "plug"),
      ("data1", .str "[3]")], addresses := [] }

/-! ## JSON serialisation (`JSON.stringify`) -/


/-- Escape one character for a JSON string literal, as `JSON.stringify`. -/
def escapeJsonChar (c : Char) : String :=
  if c = '"' then "\\\""
  else if c = '\\' then "\\\\"
  else if c = '\n' then "\\n"
  else if c = '\t' then "\\t"
  else if c = '\r' then "\\r"
  else if c.toNat = 8 then "\\b"
  else if c.toNat = 12 then "\\f"
  else if c.toNat < 32 then
    "\\u00" ++ String.mk [Char.ofNat (hexDigit (c.toNat / 16)),
      Char.ofNat (hexDigit (c.toNat % 16))]
  else String.singleton c

def renderStrLit (s : String) : String :=
  "\"" ++ String.join (s.data.map escapeJsonChar) ++ "\""

mutual

/-- Render `JSON.stringify` of a JSON value. -/
def renderJson : Json → String
  | .null => "null"
  | .bool true => "true"
  | .bool false => "false"
  | .num lit => lit
  | .str s => renderStrLit s
  | .arr items => "[" ++ String.intercalate "," (renderList items) ++ "]"
  | .obj fields =>
      String.singleton lbraceChar ++ String.intercalate "," (renderFields fields)
        ++ String.singleton rbraceChar

def renderList : List Json → List String
  | [] => []
  | j :: t => renderJson j :: renderList t

def renderFields : List (String × Json) → List String
  | [] => []
  | (k, v) :: t => (renderStrLit k ++ ":" ++ renderJson v) :: renderFields t

end

/-- Look up a field of a JSON object. -/
def jsonLookup (j : Json) (k : String) : Option Json :=
  match j with
  | .obj fields => (fields.find? (fun kv => kv.1 = k)).map (·.2)
  | _ => none

/-! ## Device state objects from `src/commonApi.ts` -/

/-- Enum `PowerState` (serialised as `'on'` / `'off'`). -/
inductive PowerState where
  | On
  | Off
deriving DecidableEq

/-- Enum `StartupState` (serialised as `'on'` / `'off'` / `'stay'`). -/
inductive StartupState where
  | On
  | Off
  | Stay
deriving DecidableEq

structure StripSwitch where
  switch : PowerState
  outlet : Nat
deriving DecidableEq

structure StripConfiguration where
  startup : StartupState
  outlet : Nat
deriving DecidableEq

structure StripPulseConfiguration where
  pulse : PowerState
  width : Nat
  outlet : Nat
deriving DecidableEq

structure StripData where
  switches : List StripSwitch
  configure : List StripConfiguration
  pulses : List StripPulseConfiguration
  sledOnline : PowerState
  staMac : String
deriving DecidableEq

def powerStateJson : PowerState → Json
  | .On => .str "on"
  | .Off => .str "off"

def startupStateJson : StartupState → Json
  | .On => .str "on"
  | .Off => .str "off"
  | .Stay => .str "stay"

def stripSwitchJson (s : StripSwitch) : Json :=
  .obj [("switch", powerStateJson s.switch), ("outlet", .num (toString s.outlet))]

def stripConfigurationJson (c : StripConfiguration) : Json :=
  .obj [("startup", startupStateJson c.startup), ("outlet", .num (toString c.outlet))]

def stripPulseConfigurationJson (p : StripPulseConfiguration) : Json :=
  .obj [("pulse", powerStateJson p.pulse), ("width", .num (toString p.width)),
    ("outlet", .num (toString p.outlet))]

/-- The JSON object that `JSON.stringify` produces for a `StripData`
value, fields in declaration order. -/
def stripDataJson (d : StripData) : Json :=
  .obj [("switches", .arr (d.switches.map stripSwitchJson)),
    ("configure", .arr (d.configure.map stripConfigurationJson)),
    ("pulses", .arr (d.pulses.map stripPulseConfigurationJson)),
    ("sledOnline", powerStateJson d.sledOnline),
    ("staMac", .str d.staMac)]

/-! ## The local-command envelope from `src/sonoffLanModeApi.ts` -/

/-- The `ApiPayload` interface.  Note the source comment: if `sequence`
and `selfApikey` were sent as numbers, the HTTP connection would fail
with `ECONNRESET`. -/
structure ApiPayload where
  sequence : String
  selfApikey : String
  deviceid : String
  data : String
  encrypt : Bool
  iv : Option String
deriving DecidableEq

/-- Render `JSON.stringify` of an `ApiPayload` object: string-typed fields
serialise as JSON strings; `iv` is present only once assigned. -/
def apiPayloadJson (p : ApiPayload) : Json :=
  .obj ([("sequence", .str p.sequence), ("selfApikey", .str p.selfApikey),
    ("deviceid", .str p.deviceid), ("data", .str p.data),
    ("encrypt", .bool p.encrypt)]
    ++ match p.iv with
       | some iv => [("iv", .str iv)]
       | none => [])

/-- The HTTP POST that `doPost` fires, modelled as a value. -/
structure Request where
  uri : String
  payload : ApiPayload
deriving DecidableEq

def getBaseUri (device : DeviceConfiguration) : String :=
  match device.service.addresses.head? with
  | some a => "http://" ++ a.host ++ ":" ++ toString a.port
  | none => "http://undefined:undefined"

/-- Function `doApiCall`.  Here `now` is `Date.now()` (milliseconds); `iv` models the
`crypto.randomBytes(16)` draw used when the payload must be encrypted.
An empty-string `apiKey` is falsy in `if (apiKey)`, so it does not
trigger encryption. -/
def doApiCall (now : Nat) (iv : List Nat) (uri deviceId : String) (data : Json)
    (apiKey : Option String) : Request :=
  let payload : ApiPayload :=
    { sequence := toString now
      selfApikey := "123"
      deviceid := deviceId
      data := renderJson data
      encrypt := false
      iv := none }
  match apiKey with
  | some key =>
      if key = "" then { uri := uri, payload := payload }
      else
        let encryptionResult := encrypt (utf8Encode payload.data) (utf8Encode key) iv
        { uri := uri
          payload := { payload with
            encrypt := true
            data := base64Encode encryptionResult.data
            iv := some (base64Encode encryptionResult.iv) } }
  | none => { uri := uri, payload := payload }

/-- The `info` request. -/
def info (now : Nat) (iv : List Nat) (device : DeviceConfiguration) : Request :=
  doApiCall now iv (getBaseUri device ++ "/zeroconf/info") device.deviceId (.obj [])
    device.deviceKey

/-- The single-switch toggle request. -/
def toggleSwitchStatus (now : Nat) (iv : List Nat) (device : DeviceConfiguration)
    (isOn : Bool) : Request :=
  doApiCall now iv (getBaseUri device ++ "/zeroconf/switch") device.deviceId
    (.obj [("switch", .str (if isOn then "on" else "off"))]) device.deviceKey

/-- The multi-switch (strip) update request. -/
def setSwitchesStatus (now : Nat) (iv : List Nat) (device : DeviceConfiguration)
    (data : StripData) : Request :=
  doApiCall now iv (getBaseUri device ++ "/zeroconf/switches") device.deviceId
    (stripDataJson data) device.deviceKey

/-! ## The strip accessory (`StripPlatformAccessory` in the old
`platformAccessory.ts` copy inside `src/commonApi.ts`) -/

/-- The `this.states.forEach((stateValue, index) => switches[index] = ...)`
loop of `StripPlatformAccessory.setOn`; `i` is the index of the first
element of `l` in the original array. -/
def buildSwitches : Nat → List Bool → List StripSwitch
  | _, [] => []
  | i, b :: t =>
      { switch := if b then .On else .Off, outlet := i } :: buildSwitches (i + 1) t

/-- The mutable fields of a `StripPlatformAccessory` that `setOn` reads
or writes: the per-outlet boolean state array, the `initialData` kept
from device discovery, and the device configuration. -/
structure StripAccessoryState where
  states : List Bool
  initialData : StripData
  device : DeviceConfiguration

/-- The `updatedData` object built by `StripPlatformAccessory.setOn`
after `this.states[outlet] = value`: switches rebuilt from the updated
state array, the remaining fields copied from `initialData`. -/
def stripSetOnData (acc : StripAccessoryState) (outlet : Nat) (value : Bool) :
    StripData :=
  { switches := buildSwitches 0 (acc.states.set outlet value)
    configure := acc.initialData.configure
    pulses := acc.initialData.pulses
    sledOnline := acc.initialData.sledOnline
    staMac := acc.initialData.staMac }

/-- Method `StripPlatformAccessory.setOn(outlet, value, callback)`: returns the
updated accessory state and the request handed to `setSwitchesStatus`. -/
def stripAccessorySetOn (now : Nat) (iv : List Nat) (acc : StripAccessoryState)
    (outlet : Nat) (value : Bool) : StripAccessoryState × Request :=
  ({ acc with states := acc.states.set outlet value },
   setSwitchesStatus now iv acc.device (stripSetOnData acc outlet value))

/-- A payload keeps `sequence` and `selfApikey` as the expected strings,
and their JSON wire form is a JSON string (the `Json.str` constructor),
not a numeric value. -/
def payloadStringlyTyped (now : Nat) (req : Request) : Prop :=
  req.payload.sequence = toString now ∧
  req.payload.selfApikey = "123" ∧
  jsonLookup (apiPayloadJson req.payload) "sequence" = some (.str (toString now)) ∧
  jsonLookup (apiPayloadJson req.payload) "selfApikey" = some (.str "123")

def svcC7 : MDNSService :=
  { name := "strip1", data := [], addresses := [{ host := "10.0.0.5", port := 8081 }] }

def devC7 : DeviceConfiguration :=
  { name := none, deviceId := "700", deviceKey := none, encrypted := false,
    type := "strip", service := svcC7 }

def stripC7 : StripAccessoryState :=
  { states := [false, false, false, false]
    initialData :=
      { switches := []
        configure := [{ startup := .Off, outlet := 0 }]
        pulses := []
        sledOnline := .On
        staMac := "aa:bb" }
    device := devC7 }

/-! ## Region-lookup request signing (`EweLinkApi.getRegion` in
`src/ewelinkApi.ts`) -/

/-- Three-way comparison of two lists of naturals. -/
def cmpNatList : List Nat → List Nat → Ordering
  | [], [] => .eq
  | [], _ :: _ => .lt
  | _ :: _, [] => .gt
  | a :: as, b :: bs =>
      if a < b then .lt else if b < a then .gt else cmpNatList as bs

/-- The primary-strength collation key of a string: the ICU root collator
compares letters case-insensitively at primary strength, so the key maps
each character to its lowercase code point.  This is faithful for the
ASCII-letter strings compared here (the request field names); none of
those comparisons is decided by a non-letter character. -/
def collPrimaryKey (s : String) : List Nat := s.data.map (fun c => c.toLower.toNat)

/-- The case (tertiary-strength) tiebreak key: lowercase sorts before
uppercase. -/
def collCaseKey (s : String) : List Nat := s.data.map (fun c => if c.isUpper then 1 else 0)

/-- Comparison `a.localeCompare(b)` under the default (ICU root) collator, for the
ASCII strings this program compares: primary strength is
case-insensitive, with case as tiebreak. -/
def jsLocaleCompare (a b : String) : Int :=
  match cmpNatList (collPrimaryKey a) (collPrimaryKey b) with
  | .lt => -1
  | .gt => 1
  | .eq =>
      match cmpNatList (collCaseKey a) (collCaseKey b) with
      | .lt => -1
      | .gt => 1
      | .eq => 0

/-- The `RegionRequest` object of `getRegion` after
`populateCommonApiRequestFields`, as an insertion-ordered key/value
list: `country_code` is set first, then the common fields in the order
the source assigns them. -/
def regionRequestParams (countryCode ts nonce imei : String) : List (String × String) :=
  [("country_code", countryCode), ("version", "6"), ("ts", ts), ("nonce", nonce),
   ("appid", "oeVkj2lYFGnJu5XUtWisfW4utiN4u9Mq"), ("imei", imei), ("os", "iOS"),
   ("model", "iPhone10,6"), ("romVersion", "11.1.2"), ("appVersion", "3.5.3")]

/-- Read `requestParams[key]` for a key taken from `Object.keys`. -/
def lookupParam (params : List (String × String)) (k : String) : String :=
  ((params.find? (fun kv => kv.1 = k)).map (fun kv => kv.2)).getD "undefined"

def insertSorted (le : α → α → Bool) (a : α) : List α → List α
  | [] => [a]
  | b :: t => if le b a then b :: insertSorted le a t else a :: b :: t

/-- A stable sort (insertion sort).  `Array.prototype.sort` is stable,
and for a consistent comparator any stable sort computes the same
permutation. -/
def stableSort (le : α → α → Bool) (l : List α) : List α :=
  l.foldl (fun acc a => insertSorted le a acc) []

/-- The string `Object.keys(requestParams).sort((a, b) => b.localeCompare(a))
.map(key => key + '=' + requestParams[key]).join('&')`. -/
def dataToSign (params : List (String × String)) : String :=
  String.intercalate "&"
    ((stableSort (fun a b => decide (jsLocaleCompare b a ≤ 0)) (params.map Prod.fst)).map
      (fun k => k ++ "=" ++ lookupParam params k))

/-- The code points of a string, for plain lexicographic comparison. -/
def codepointKey (s : String) : List Nat := s.data.map Char.toNat

/-- Modelled from the spec words, for comparison with `dataToSign`: the
field names sorted in descending lexicographic (code-point) order,
joined as key=value pairs with the ampersand. -/
def specDataToSignLexDesc (params : List (String × String)) : String :=
  String.intercalate "&"
    ((stableSort
        (fun a b => match cmpNatList (codepointKey a) (codepointKey b) with
          | .lt => false
          | _ => true)
        (params.map Prod.fst)).map
      (fun k => k ++ "=" ++ lookupParam params k))

/-! ## Cloud login (`EweLinkApi.login` in `src/ewelinkApi.ts`) -/

/-- The `LoginResponse` body as the `.then` handler reads it: the `at`
field holds the authentication token, absent when the server sent
none. -/
structure LoginResponse where
  «at» : Option String

/-- The piece of `EweLinkConfig` that `login` mutates: the stored
authentication token (`this.config.authenticationToken`). -/
structure CloudSession where
  authenticationToken : Option String

/-- One call to the promise executor's `resolve` or `reject`. -/
inductive Settlement where
  | resolved (r : LoginResponse)
  | rejected (msg : String)

/-- The fulfilled-response handler inside `login`'s promise executor,
line by line: `if (!response.data.at)` logs and calls `reject` — with
no `return`, so execution continues — then assigns
`this.config.authenticationToken = response.data.at` and calls
`resolve(response.data)`.  Returns the mutated config and the
resolve/reject calls in program order.  (`!x` is true for an absent
field and for the empty string, both falsy.) -/
def loginThenHandler (config : CloudSession) (resp : LoginResponse) :
    CloudSession × List Settlement :=
  let attempts :=
    if (match resp.«at» with | none => true | some s => s = "") then
      [Settlement.rejected "Server did not response with an authentication token."]
    else []
  let config' := { config with authenticationToken := resp.«at» }
  (config', attempts ++ [Settlement.resolved resp])

/-- A promise settles with the first `resolve`/`reject` call; later
calls are ignored. -/
def promiseOutcome (attempts : List Settlement) : Option Settlement := attempts.head?

def sessionC8 : CloudSession := { authenticationToken := some "old-token" }

def respC8 : LoginResponse := { «at» := none }

theorem xtime_lt {b : Nat} (hb : b < 256) : xtime b < 256 := by
  unfold xtime
  split
  · omega
  · exact Nat.xor_lt_two_pow (n := 8) (Nat.mod_lt _ (by omega)) (by omega)

theorem xor_left_comm (a b c : Nat) : a ^^^ (b ^^^ c) = b ^^^ (a ^^^ c) := by
  rw [← Nat.xor_assoc, Nat.xor_comm a b, Nat.xor_assoc]

theorem xor_div_two_pow (k x y : Nat) : (x ^^^ y) / 2 ^ k = x / 2 ^ k ^^^ y / 2 ^ k := by
  have h : ∀ z : Nat, z / 2 ^ k = z >>> k := by
    intro z; rw [Nat.shiftRight_eq_div_pow]
  rw [h, h, h]
  apply Nat.eq_of_testBit_eq
  intro i
  simp [Nat.testBit_shiftRight, Nat.testBit_xor]

theorem two_mul_xor (x y : Nat) : 2 * (x ^^^ y) = 2 * x ^^^ 2 * y := by
  apply Nat.eq_of_testBit_eq
  intro i
  have h2 : ∀ z : Nat, 2 * z / 2 = z := fun z => by omega
  have hdiv2 : ∀ a b : Nat, (a ^^^ b) / 2 = a / 2 ^^^ b / 2 := by
    intro a b
    have := xor_div_two_pow 1 a b
    simpa using this
  cases i with
  | zero => simp [Nat.testBit_zero, Nat.mul_mod_right]
  | succ i => simp [Nat.testBit_add_one, hdiv2, h2]

theorem xor_mod256 (x y : Nat) : (x ^^^ y) % 256 = x % 256 ^^^ y % 256 := by
  apply Nat.eq_of_testBit_eq
  intro i
  have h256 : (256 : Nat) = 2 ^ 8 := by norm_num
  simp only [h256, Nat.testBit_mod_two_pow, Nat.testBit_xor]
  by_cases h : i < 8 <;> simp [h]

theorem xor_div128 (x y : Nat) : (x ^^^ y) / 128 = x / 128 ^^^ y / 128 := by
  have := xor_div_two_pow 7 x y
  simpa using this

theorem xtime_eq {b : Nat} (hb : b < 256) :
    xtime b = ((2 * b) % 256) ^^^ 27 * (b / 128) := by
  unfold xtime
  split
  · have h1 : b / 128 = 0 := by omega
    have h2 : (2 * b) % 256 = 2 * b := by omega
    simp [h1, h2]
  · have h1 : b / 128 = 1 := by omega
    simp [h1]

/-- The map `xtime` is GF(2)-linear: it distributes over byte-wise xor. -/
theorem xtime_xor {x y : Nat} (hx : x < 256) (hy : y < 256) :
    xtime (x ^^^ y) = xtime x ^^^ xtime y := by
  have hxy : x ^^^ y < 256 := Nat.xor_lt_two_pow (n := 8) hx hy
  rw [xtime_eq hxy, xtime_eq hx, xtime_eq hy, two_mul_xor, xor_mod256, xor_div128]
  have hdx : x / 128 = 0 ∨ x / 128 = 1 := by omega
  have hdy : y / 128 = 0 ∨ y / 128 = 1 := by omega
  rcases hdx with h | h <;> rcases hdy with h' | h' <;>
    simp [h, h', Nat.xor_assoc, Nat.xor_comm, xor_left_comm, Nat.xor_cancel_left,
      Nat.xor_self, Nat.xor_zero, Nat.zero_xor]

/-- Regroup a xor of four row-groups into four column-groups. -/
theorem xor4x4 (a1 a2 a3 a4 b1 b2 b3 b4 c1 c2 c3 c4 d1 d2 d3 d4 : Nat) :
    (a1 ^^^ a2 ^^^ a3 ^^^ a4) ^^^ (b1 ^^^ b2 ^^^ b3 ^^^ b4) ^^^
      (c1 ^^^ c2 ^^^ c3 ^^^ c4) ^^^ (d1 ^^^ d2 ^^^ d3 ^^^ d4) =
    (a1 ^^^ b1 ^^^ c1 ^^^ d1) ^^^ (a2 ^^^ b2 ^^^ c2 ^^^ d2) ^^^
      (a3 ^^^ b3 ^^^ c3 ^^^ d3) ^^^ (a4 ^^^ b4 ^^^ c4 ^^^ d4) := by
  simp only [Nat.xor_assoc]
  simp [Nat.xor_comm, xor_left_comm]

theorem xor_lt256 {x y : Nat} (hx : x < 256) (hy : y < 256) : x ^^^ y < 256 := by
  have := Nat.xor_lt_two_pow (n := 8) (by omega : x < 2 ^ 8) (by omega : y < 2 ^ 8)
  omega

theorem mul3_lt {b : Nat} (hb : b < 256) : mul3 b < 256 :=
  xor_lt256 (xtime_lt hb) hb

theorem mul9_lt {b : Nat} (hb : b < 256) : mul9 b < 256 :=
  xor_lt256 (xtime_lt (xtime_lt (xtime_lt hb))) hb

theorem mul11_lt {b : Nat} (hb : b < 256) : mul11 b < 256 :=
  xor_lt256 (xor_lt256 (xtime_lt (xtime_lt (xtime_lt hb))) (xtime_lt hb)) hb

theorem mul13_lt {b : Nat} (hb : b < 256) : mul13 b < 256 :=
  xor_lt256 (xor_lt256 (xtime_lt (xtime_lt (xtime_lt hb))) (xtime_lt (xtime_lt hb))) hb

theorem mul14_lt {b : Nat} (hb : b < 256) : mul14 b < 256 :=
  xor_lt256 (xor_lt256 (xtime_lt (xtime_lt (xtime_lt hb))) (xtime_lt (xtime_lt hb)))
    (xtime_lt hb)

theorem xtime3_xor {x y : Nat} (hx : x < 256) (hy : y < 256) :
    xtime (xtime (xtime (x ^^^ y)))
      = xtime (xtime (xtime x)) ^^^ xtime (xtime (xtime y)) := by
  rw [xtime_xor hx hy, xtime_xor (xtime_lt hx) (xtime_lt hy),
    xtime_xor (xtime_lt (xtime_lt hx)) (xtime_lt (xtime_lt hy))]

theorem xtime2_xor {x y : Nat} (hx : x < 256) (hy : y < 256) :
    xtime (xtime (x ^^^ y)) = xtime (xtime x) ^^^ xtime (xtime y) := by
  rw [xtime_xor hx hy, xtime_xor (xtime_lt hx) (xtime_lt hy)]

theorem mul3_xor {x y : Nat} (hx : x < 256) (hy : y < 256) :
    mul3 (x ^^^ y) = mul3 x ^^^ mul3 y := by
  unfold mul3
  rw [xtime_xor hx hy]
  simp [Nat.xor_assoc, Nat.xor_comm, xor_left_comm]

theorem mul9_xor {x y : Nat} (hx : x < 256) (hy : y < 256) :
    mul9 (x ^^^ y) = mul9 x ^^^ mul9 y := by
  unfold mul9
  rw [xtime3_xor hx hy]
  simp [Nat.xor_assoc, Nat.xor_comm, xor_left_comm]

theorem mul11_xor {x y : Nat} (hx : x < 256) (hy : y < 256) :
    mul11 (x ^^^ y) = mul11 x ^^^ mul11 y := by
  unfold mul11
  rw [xtime3_xor hx hy, xtime_xor hx hy]
  simp [Nat.xor_assoc, Nat.xor_comm, xor_left_comm]

theorem mul13_xor {x y : Nat} (hx : x < 256) (hy : y < 256) :
    mul13 (x ^^^ y) = mul13 x ^^^ mul13 y := by
  unfold mul13
  rw [xtime3_xor hx hy, xtime2_xor hx hy]
  simp [Nat.xor_assoc, Nat.xor_comm, xor_left_comm]

theorem mul14_xor {x y : Nat} (hx : x < 256) (hy : y < 256) :
    mul14 (x ^^^ y) = mul14 x ^^^ mul14 y := by
  unfold mul14
  rw [xtime3_xor hx hy, xtime2_xor hx hy, xtime_xor hx hy]
  simp [Nat.xor_assoc, Nat.xor_comm, xor_left_comm]

/-- The product of the InvMixColumns and MixColumns coefficient matrices is
the identity over GF(2^8), checked entrywise on every byte. -/
theorem mixMatrixFin : ∀ x : Fin 256,
    (mul14 (xtime x.val) ^^^ mul11 x.val ^^^ mul13 x.val ^^^ mul9 (mul3 x.val) = x.val) ∧
    (mul14 (mul3 x.val) ^^^ mul11 (xtime x.val) ^^^ mul13 x.val ^^^ mul9 x.val = 0) ∧
    (mul14 x.val ^^^ mul11 (mul3 x.val) ^^^ mul13 (xtime x.val) ^^^ mul9 x.val = 0) ∧
    (mul14 x.val ^^^ mul11 x.val ^^^ mul13 (mul3 x.val) ^^^ mul9 (xtime x.val) = 0) ∧
    (mul9 (xtime x.val) ^^^ mul14 x.val ^^^ mul11 x.val ^^^ mul13 (mul3 x.val) = 0) ∧
    (mul9 (mul3 x.val) ^^^ mul14 (xtime x.val) ^^^ mul11 x.val ^^^ mul13 x.val = x.val) ∧
    (mul9 x.val ^^^ mul14 (mul3 x.val) ^^^ mul11 (xtime x.val) ^^^ mul13 x.val = 0) ∧
    (mul9 x.val ^^^ mul14 x.val ^^^ mul11 (mul3 x.val) ^^^ mul13 (xtime x.val) = 0) ∧
    (mul13 (xtime x.val) ^^^ mul9 x.val ^^^ mul14 x.val ^^^ mul11 (mul3 x.val) = 0) ∧
    (mul13 (mul3 x.val) ^^^ mul9 (xtime x.val) ^^^ mul14 x.val ^^^ mul11 x.val = 0) ∧
    (mul13 x.val ^^^ mul9 (mul3 x.val) ^^^ mul14 (xtime x.val) ^^^ mul11 x.val = x.val) ∧
    (mul13 x.val ^^^ mul9 x.val ^^^ mul14 (mul3 x.val) ^^^ mul11 (xtime x.val) = 0) ∧
    (mul11 (xtime x.val) ^^^ mul13 x.val ^^^ mul9 x.val ^^^ mul14 (mul3 x.val) = 0) ∧
    (mul11 (mul3 x.val) ^^^ mul13 (xtime x.val) ^^^ mul9 x.val ^^^ mul14 x.val = 0) ∧
    (mul11 x.val ^^^ mul13 (mul3 x.val) ^^^ mul9 (xtime x.val) ^^^ mul14 x.val = 0) ∧
    (mul11 x.val ^^^ mul13 x.val ^^^ mul9 (mul3 x.val) ^^^ mul14 (xtime x.val) = x.val) := by
  decide

theorem mixMatrixId {a : Nat} (ha : a < 256) :
    (mul14 (xtime a) ^^^ mul11 a ^^^ mul13 a ^^^ mul9 (mul3 a) = a) ∧
    (mul14 (mul3 a) ^^^ mul11 (xtime a) ^^^ mul13 a ^^^ mul9 a = 0) ∧
    (mul14 a ^^^ mul11 (mul3 a) ^^^ mul13 (xtime a) ^^^ mul9 a = 0) ∧
    (mul14 a ^^^ mul11 a ^^^ mul13 (mul3 a) ^^^ mul9 (xtime a) = 0) ∧
    (mul9 (xtime a) ^^^ mul14 a ^^^ mul11 a ^^^ mul13 (mul3 a) = 0) ∧
    (mul9 (mul3 a) ^^^ mul14 (xtime a) ^^^ mul11 a ^^^ mul13 a = a) ∧
    (mul9 a ^^^ mul14 (mul3 a) ^^^ mul11 (xtime a) ^^^ mul13 a = 0) ∧
    (mul9 a ^^^ mul14 a ^^^ mul11 (mul3 a) ^^^ mul13 (xtime a) = 0) ∧
    (mul13 (xtime a) ^^^ mul9 a ^^^ mul14 a ^^^ mul11 (mul3 a) = 0) ∧
    (mul13 (mul3 a) ^^^ mul9 (xtime a) ^^^ mul14 a ^^^ mul11 a = 0) ∧
    (mul13 a ^^^ mul9 (mul3 a) ^^^ mul14 (xtime a) ^^^ mul11 a = a) ∧
    (mul13 a ^^^ mul9 a ^^^ mul14 (mul3 a) ^^^ mul11 (xtime a) = 0) ∧
    (mul11 (xtime a) ^^^ mul13 a ^^^ mul9 a ^^^ mul14 (mul3 a) = 0) ∧
    (mul11 (mul3 a) ^^^ mul13 (xtime a) ^^^ mul9 a ^^^ mul14 a = 0) ∧
    (mul11 a ^^^ mul13 (mul3 a) ^^^ mul9 (xtime a) ^^^ mul14 a = 0) ∧
    (mul11 a ^^^ mul13 a ^^^ mul9 (mul3 a) ^^^ mul14 (xtime a) = a) :=
  mixMatrixFin ⟨a, ha⟩

theorem mul14_xor4 {p q r s : Nat} (hp : p < 256) (hq : q < 256) (hr : r < 256)
    (hs : s < 256) :
    mul14 (p ^^^ q ^^^ r ^^^ s) = mul14 p ^^^ mul14 q ^^^ mul14 r ^^^ mul14 s := by
  rw [mul14_xor (xor_lt256 (xor_lt256 hp hq) hr) hs, mul14_xor (xor_lt256 hp hq) hr,
    mul14_xor hp hq]

theorem mul11_xor4 {p q r s : Nat} (hp : p < 256) (hq : q < 256) (hr : r < 256)
    (hs : s < 256) :
    mul11 (p ^^^ q ^^^ r ^^^ s) = mul11 p ^^^ mul11 q ^^^ mul11 r ^^^ mul11 s := by
  rw [mul11_xor (xor_lt256 (xor_lt256 hp hq) hr) hs, mul11_xor (xor_lt256 hp hq) hr,
    mul11_xor hp hq]

theorem mul13_xor4 {p q r s : Nat} (hp : p < 256) (hq : q < 256) (hr : r < 256)
    (hs : s < 256) :
    mul13 (p ^^^ q ^^^ r ^^^ s) = mul13 p ^^^ mul13 q ^^^ mul13 r ^^^ mul13 s := by
  rw [mul13_xor (xor_lt256 (xor_lt256 hp hq) hr) hs, mul13_xor (xor_lt256 hp hq) hr,
    mul13_xor hp hq]

theorem mul9_xor4 {p q r s : Nat} (hp : p < 256) (hq : q < 256) (hr : r < 256)
    (hs : s < 256) :
    mul9 (p ^^^ q ^^^ r ^^^ s) = mul9 p ^^^ mul9 q ^^^ mul9 r ^^^ mul9 s := by
  rw [mul9_xor (xor_lt256 (xor_lt256 hp hq) hr) hs, mul9_xor (xor_lt256 hp hq) hr,
    mul9_xor hp hq]

theorem ic0_mc {a b c d : Nat} (ha : a < 256) (hb : b < 256) (hc : c < 256)
    (hd : d < 256) :
    ic0 (mc0 a b c d) (mc1 a b c d) (mc2 a b c d) (mc3 a b c d) = a := by
  unfold ic0 mc0 mc1 mc2 mc3
  rw [mul14_xor4 (xtime_lt ha) (mul3_lt hb) hc hd,
    mul11_xor4 ha (xtime_lt hb) (mul3_lt hc) hd,
    mul13_xor4 ha hb (xtime_lt hc) (mul3_lt hd),
    mul9_xor4 (mul3_lt ha) hb hc (xtime_lt hd),
    xor4x4,
    (mixMatrixId ha).1, (mixMatrixId hb).2.1, (mixMatrixId hc).2.2.1,
    (mixMatrixId hd).2.2.2.1]
  simp

theorem ic1_mc {a b c d : Nat} (ha : a < 256) (hb : b < 256) (hc : c < 256)
    (hd : d < 256) :
    ic1 (mc0 a b c d) (mc1 a b c d) (mc2 a b c d) (mc3 a b c d) = b := by
  unfold ic1 mc0 mc1 mc2 mc3
  rw [mul9_xor4 (xtime_lt ha) (mul3_lt hb) hc hd,
    mul14_xor4 ha (xtime_lt hb) (mul3_lt hc) hd,
    mul11_xor4 ha hb (xtime_lt hc) (mul3_lt hd),
    mul13_xor4 (mul3_lt ha) hb hc (xtime_lt hd),
    xor4x4,
    (mixMatrixId ha).2.2.2.2.1, (mixMatrixId hb).2.2.2.2.2.1,
    (mixMatrixId hc).2.2.2.2.2.2.1, (mixMatrixId hd).2.2.2.2.2.2.2.1]
  simp

theorem ic2_mc {a b c d : Nat} (ha : a < 256) (hb : b < 256) (hc : c < 256)
    (hd : d < 256) :
    ic2 (mc0 a b c d) (mc1 a b c d) (mc2 a b c d) (mc3 a b c d) = c := by
  unfold ic2 mc0 mc1 mc2 mc3
  rw [mul13_xor4 (xtime_lt ha) (mul3_lt hb) hc hd,
    mul9_xor4 ha (xtime_lt hb) (mul3_lt hc) hd,
    mul14_xor4 ha hb (xtime_lt hc) (mul3_lt hd),
    mul11_xor4 (mul3_lt ha) hb hc (xtime_lt hd),
    xor4x4,
    (mixMatrixId ha).2.2.2.2.2.2.2.2.1, (mixMatrixId hb).2.2.2.2.2.2.2.2.2.1,
    (mixMatrixId hc).2.2.2.2.2.2.2.2.2.2.1,
    (mixMatrixId hd).2.2.2.2.2.2.2.2.2.2.2.1]
  simp

theorem ic3_mc {a b c d : Nat} (ha : a < 256) (hb : b < 256) (hc : c < 256)
    (hd : d < 256) :
    ic3 (mc0 a b c d) (mc1 a b c d) (mc2 a b c d) (mc3 a b c d) = d := by
  unfold ic3 mc0 mc1 mc2 mc3
  rw [mul11_xor4 (xtime_lt ha) (mul3_lt hb) hc hd,
    mul13_xor4 ha (xtime_lt hb) (mul3_lt hc) hd,
    mul9_xor4 ha hb (xtime_lt hc) (mul3_lt hd),
    mul14_xor4 (mul3_lt ha) hb hc (xtime_lt hd),
    xor4x4,
    (mixMatrixId ha).2.2.2.2.2.2.2.2.2.2.2.2.1,
    (mixMatrixId hb).2.2.2.2.2.2.2.2.2.2.2.2.2.1,
    (mixMatrixId hc).2.2.2.2.2.2.2.2.2.2.2.2.2.2.1,
    (mixMatrixId hd).2.2.2.2.2.2.2.2.2.2.2.2.2.2.2]
  simp

theorem invSbox_sbox_fin : ∀ b : Fin 256, invSbox (sbox b.val) = b.val := by decide

theorem sbox_lt_fin : ∀ b : Fin 256, sbox b.val < 256 := by decide

theorem invSbox_sbox {b : Nat} (hb : b < 256) : invSbox (sbox b) = b :=
  invSbox_sbox_fin ⟨b, hb⟩

theorem sbox_lt {b : Nat} (hb : b < 256) : sbox b < 256 :=
  sbox_lt_fin ⟨b, hb⟩

/-! ## Inversion of the AES block cipher -/

theorem exists16 {s : List Nat} (h : s.length = 16) :
    ∃ b0 b1 b2 b3 b4 b5 b6 b7 b8 b9 b10 b11 b12 b13 b14 b15,
      s = [b0, b1, b2, b3, b4, b5, b6, b7, b8, b9, b10, b11, b12, b13, b14, b15] := by
  obtain ⟨b0, s, rfl⟩ := List.exists_of_length_succ s h
  have h1 : s.length = 15 := by simpa using h
  obtain ⟨b1, s, rfl⟩ := List.exists_of_length_succ s h1
  have h2 : s.length = 14 := by simpa using h1
  obtain ⟨b2, s, rfl⟩ := List.exists_of_length_succ s h2
  have h3 : s.length = 13 := by simpa using h2
  obtain ⟨b3, s, rfl⟩ := List.exists_of_length_succ s h3
  have h4 : s.length = 12 := by simpa using h3
  obtain ⟨b4, s, rfl⟩ := List.exists_of_length_succ s h4
  have h5 : s.length = 11 := by simpa using h4
  obtain ⟨b5, s, rfl⟩ := List.exists_of_length_succ s h5
  have h6 : s.length = 10 := by simpa using h5
  obtain ⟨b6, s, rfl⟩ := List.exists_of_length_succ s h6
  have h7 : s.length = 9 := by simpa using h6
  obtain ⟨b7, s, rfl⟩ := List.exists_of_length_succ s h7
  have h8 : s.length = 8 := by simpa using h7
  obtain ⟨b8, s, rfl⟩ := List.exists_of_length_succ s h8
  have h9 : s.length = 7 := by simpa using h8
  obtain ⟨b9, s, rfl⟩ := List.exists_of_length_succ s h9
  have h10 : s.length = 6 := by simpa using h9
  obtain ⟨b10, s, rfl⟩ := List.exists_of_length_succ s h10
  have h11 : s.length = 5 := by simpa using h10
  obtain ⟨b11, s, rfl⟩ := List.exists_of_length_succ s h11
  have h12 : s.length = 4 := by simpa using h11
  obtain ⟨b12, s, rfl⟩ := List.exists_of_length_succ s h12
  have h13 : s.length = 3 := by simpa using h12
  obtain ⟨b13, s, rfl⟩ := List.exists_of_length_succ s h13
  have h14 : s.length = 2 := by simpa using h13
  obtain ⟨b14, s, rfl⟩ := List.exists_of_length_succ s h14
  have h15 : s.length = 1 := by simpa using h14
  obtain ⟨b15, s, rfl⟩ := List.exists_of_length_succ s h15
  have h16 : s.length = 0 := by simpa using h15
  have : s = [] := List.length_eq_zero.mp h16
  subst this
  exact ⟨b0, b1, b2, b3, b4, b5, b6, b7, b8, b9, b10, b11, b12, b13, b14, b15, rfl⟩

theorem invShiftRows_shiftRows {s : List Nat} (h : s.length = 16) :
    invShiftRows (shiftRows s) = s := by
  obtain ⟨b0, b1, b2, b3, b4, b5, b6, b7, b8, b9, b10, b11, b12, b13, b14, b15, rfl⟩ :=
    exists16 h
  rfl

theorem invSubBytes_subBytes {s : List Nat} (hg : GoodBytes s) :
    invSubBytes (subBytes s) = s := by
  induction s with
  | nil => rfl
  | cons x t ih =>
      have hx : x < 256 := hg x (by simp)
      have ht : GoodBytes t := fun y hy => hg y (by simp [hy])
      simp only [subBytes, invSubBytes, List.map_cons] at *
      rw [invSbox_sbox hx]
      exact congrArg _ (ih ht)

theorem addRoundKey_addRoundKey {rk s : List Nat} (h : s.length = rk.length) :
    addRoundKey rk (addRoundKey rk s) = s := by
  unfold addRoundKey
  induction s generalizing rk with
  | nil => simp
  | cons x t ih =>
      cases rk with
      | nil => simp at h
      | cons k ks =>
          simp only [List.zipWith_cons_cons]
          rw [Nat.xor_cancel_right]
          exact congrArg _ (ih (by simpa using h))

theorem goodBytes16 {b0 b1 b2 b3 b4 b5 b6 b7 b8 b9 b10 b11 b12 b13 b14 b15 : Nat}
    (hg : GoodBytes [b0, b1, b2, b3, b4, b5, b6, b7, b8, b9, b10, b11, b12, b13, b14, b15]) :
    b0 < 256 ∧ b1 < 256 ∧ b2 < 256 ∧ b3 < 256 ∧ b4 < 256 ∧ b5 < 256 ∧ b6 < 256 ∧
    b7 < 256 ∧ b8 < 256 ∧ b9 < 256 ∧ b10 < 256 ∧ b11 < 256 ∧ b12 < 256 ∧ b13 < 256 ∧
    b14 < 256 ∧ b15 < 256 := by
  simp only [GoodBytes, List.forall_mem_cons] at hg
  obtain ⟨g0, g1, g2, g3, g4, g5, g6, g7, g8, g9, g10, g11, g12, g13, g14, g15, -⟩ := hg
  exact ⟨g0, g1, g2, g3, g4, g5, g6, g7, g8, g9, g10, g11, g12, g13, g14, g15⟩

theorem mc0_lt {a b c d : Nat} (ha : a < 256) (hb : b < 256) (hc : c < 256)
    (hd : d < 256) : mc0 a b c d < 256 :=
  xor_lt256 (xor_lt256 (xor_lt256 (xtime_lt ha) (mul3_lt hb)) hc) hd

theorem mc1_lt {a b c d : Nat} (ha : a < 256) (hb : b < 256) (hc : c < 256)
    (hd : d < 256) : mc1 a b c d < 256 :=
  xor_lt256 (xor_lt256 (xor_lt256 ha (xtime_lt hb)) (mul3_lt hc)) hd

theorem mc2_lt {a b c d : Nat} (ha : a < 256) (hb : b < 256) (hc : c < 256)
    (hd : d < 256) : mc2 a b c d < 256 :=
  xor_lt256 (xor_lt256 (xor_lt256 ha hb) (xtime_lt hc)) (mul3_lt hd)

theorem mc3_lt {a b c d : Nat} (ha : a < 256) (hb : b < 256) (hc : c < 256)
    (hd : d < 256) : mc3 a b c d < 256 :=
  xor_lt256 (xor_lt256 (xor_lt256 (mul3_lt ha) hb) hc) (xtime_lt hd)

theorem invMixColumns_mixColumns {s : List Nat} (h : s.length = 16)
    (hg : GoodBytes s) : invMixColumns (mixColumns s) = s := by
  obtain ⟨b0, b1, b2, b3, b4, b5, b6, b7, b8, b9, b10, b11, b12, b13, b14, b15, rfl⟩ :=
    exists16 h
  obtain ⟨g0, g1, g2, g3, g4, g5, g6, g7, g8, g9, g10, g11, g12, g13, g14, g15⟩ :=
    goodBytes16 hg
  show invMixColumns
      [mc0 b0 b1 b2 b3, mc1 b0 b1 b2 b3, mc2 b0 b1 b2 b3, mc3 b0 b1 b2 b3,
       mc0 b4 b5 b6 b7, mc1 b4 b5 b6 b7, mc2 b4 b5 b6 b7, mc3 b4 b5 b6 b7,
       mc0 b8 b9 b10 b11, mc1 b8 b9 b10 b11, mc2 b8 b9 b10 b11, mc3 b8 b9 b10 b11,
       mc0 b12 b13 b14 b15, mc1 b12 b13 b14 b15, mc2 b12 b13 b14 b15,
       mc3 b12 b13 b14 b15] = _
  show [ic0 (mc0 b0 b1 b2 b3) (mc1 b0 b1 b2 b3) (mc2 b0 b1 b2 b3) (mc3 b0 b1 b2 b3),
        ic1 (mc0 b0 b1 b2 b3) (mc1 b0 b1 b2 b3) (mc2 b0 b1 b2 b3) (mc3 b0 b1 b2 b3),
        ic2 (mc0 b0 b1 b2 b3) (mc1 b0 b1 b2 b3) (mc2 b0 b1 b2 b3) (mc3 b0 b1 b2 b3),
        ic3 (mc0 b0 b1 b2 b3) (mc1 b0 b1 b2 b3) (mc2 b0 b1 b2 b3) (mc3 b0 b1 b2 b3),
        ic0 (mc0 b4 b5 b6 b7) (mc1 b4 b5 b6 b7) (mc2 b4 b5 b6 b7) (mc3 b4 b5 b6 b7),
        ic1 (mc0 b4 b5 b6 b7) (mc1 b4 b5 b6 b7) (mc2 b4 b5 b6 b7) (mc3 b4 b5 b6 b7),
        ic2 (mc0 b4 b5 b6 b7) (mc1 b4 b5 b6 b7) (mc2 b4 b5 b6 b7) (mc3 b4 b5 b6 b7),
        ic3 (mc0 b4 b5 b6 b7) (mc1 b4 b5 b6 b7) (mc2 b4 b5 b6 b7) (mc3 b4 b5 b6 b7),
        ic0 (mc0 b8 b9 b10 b11) (mc1 b8 b9 b10 b11) (mc2 b8 b9 b10 b11)
          (mc3 b8 b9 b10 b11),
        ic1 (mc0 b8 b9 b10 b11) (mc1 b8 b9 b10 b11) (mc2 b8 b9 b10 b11)
          (mc3 b8 b9 b10 b11),
        ic2 (mc0 b8 b9 b10 b11) (mc1 b8 b9 b10 b11) (mc2 b8 b9 b10 b11)
          (mc3 b8 b9 b10 b11),
        ic3 (mc0 b8 b9 b10 b11) (mc1 b8 b9 b10 b11) (mc2 b8 b9 b10 b11)
          (mc3 b8 b9 b10 b11),
        ic0 (mc0 b12 b13 b14 b15) (mc1 b12 b13 b14 b15) (mc2 b12 b13 b14 b15)
          (mc3 b12 b13 b14 b15),
        ic1 (mc0 b12 b13 b14 b15) (mc1 b12 b13 b14 b15) (mc2 b12 b13 b14 b15)
          (mc3 b12 b13 b14 b15),
        ic2 (mc0 b12 b13 b14 b15) (mc1 b12 b13 b14 b15) (mc2 b12 b13 b14 b15)
          (mc3 b12 b13 b14 b15),
        ic3 (mc0 b12 b13 b14 b15) (mc1 b12 b13 b14 b15) (mc2 b12 b13 b14 b15)
          (mc3 b12 b13 b14 b15)] = _
  rw [ic0_mc g0 g1 g2 g3, ic1_mc g0 g1 g2 g3, ic2_mc g0 g1 g2 g3, ic3_mc g0 g1 g2 g3,
    ic0_mc g4 g5 g6 g7, ic1_mc g4 g5 g6 g7, ic2_mc g4 g5 g6 g7, ic3_mc g4 g5 g6 g7,
    ic0_mc g8 g9 g10 g11, ic1_mc g8 g9 g10 g11, ic2_mc g8 g9 g10 g11,
    ic3_mc g8 g9 g10 g11, ic0_mc g12 g13 g14 g15, ic1_mc g12 g13 g14 g15,
    ic2_mc g12 g13 g14 g15, ic3_mc g12 g13 g14 g15]

theorem subBytes_length (s : List Nat) : (subBytes s).length = s.length :=
  List.length_map s sbox

theorem subBytes_good {s : List Nat} (hg : GoodBytes s) : GoodBytes (subBytes s) := by
  intro x hx
  simp only [subBytes, List.mem_map] at hx
  obtain ⟨y, hy, rfl⟩ := hx
  exact sbox_lt (hg y hy)

theorem shiftRows_length (s : List Nat) : (shiftRows s).length = s.length := by
  unfold shiftRows
  split <;> rfl

theorem shiftRows_good {s : List Nat} (hg : GoodBytes s) : GoodBytes (shiftRows s) := by
  unfold shiftRows
  split
  · obtain ⟨g0, g1, g2, g3, g4, g5, g6, g7, g8, g9, g10, g11, g12, g13, g14, g15⟩ :=
      goodBytes16 hg
    simp only [GoodBytes, List.forall_mem_cons]
    exact ⟨g0, g5, g10, g15, g4, g9, g14, g3, g8, g13, g2, g7, g12, g1, g6, g11,
      List.forall_mem_nil _⟩
  · exact hg

theorem mixColumns_length (s : List Nat) : (mixColumns s).length = s.length := by
  unfold mixColumns
  split <;> rfl

theorem mixColumns_good {s : List Nat} (hg : GoodBytes s) : GoodBytes (mixColumns s) := by
  unfold mixColumns
  split
  · obtain ⟨g0, g1, g2, g3, g4, g5, g6, g7, g8, g9, g10, g11, g12, g13, g14, g15⟩ :=
      goodBytes16 hg
    simp only [GoodBytes, List.forall_mem_cons]
    exact ⟨mc0_lt g0 g1 g2 g3, mc1_lt g0 g1 g2 g3, mc2_lt g0 g1 g2 g3,
      mc3_lt g0 g1 g2 g3, mc0_lt g4 g5 g6 g7, mc1_lt g4 g5 g6 g7, mc2_lt g4 g5 g6 g7,
      mc3_lt g4 g5 g6 g7, mc0_lt g8 g9 g10 g11, mc1_lt g8 g9 g10 g11,
      mc2_lt g8 g9 g10 g11, mc3_lt g8 g9 g10 g11, mc0_lt g12 g13 g14 g15,
      mc1_lt g12 g13 g14 g15, mc2_lt g12 g13 g14 g15, mc3_lt g12 g13 g14 g15,
      List.forall_mem_nil _⟩
  · exact hg

theorem addRoundKey_length (rk s : List Nat) :
    (addRoundKey rk s).length = min s.length rk.length :=
  List.length_zipWith _ _ _

theorem addRoundKey_good {rk s : List Nat} (hgk : GoodBytes rk) (hgs : GoodBytes s) :
    GoodBytes (addRoundKey rk s) := by
  unfold addRoundKey
  induction s generalizing rk with
  | nil => intro x hx; simp at hx
  | cons a t ih =>
      cases rk with
      | nil => intro x hx; simp at hx
      | cons k ks =>
          intro x hx
          simp only [List.zipWith_cons_cons, List.mem_cons] at hx
          rcases hx with rfl | hx
          · exact xor_lt256 (hgs a (by simp)) (hgk k (by simp))
          · exact ih (fun y hy => hgk y (by simp [hy])) (fun y hy => hgs y (by simp [hy]))
              x hx

theorem nextRoundKey_length {rk : List Nat} (rc : Nat) (h : rk.length = 16) :
    (nextRoundKey rk rc).length = 16 := by
  unfold nextRoundKey
  split
  · rfl
  · exact h

theorem nextRoundKey_good {rk : List Nat} {rc : Nat} (hg : GoodBytes rk)
    (hrc : rc < 256) : GoodBytes (nextRoundKey rk rc) := by
  unfold nextRoundKey
  split
  · obtain ⟨g0, g1, g2, g3, g4, g5, g6, g7, g8, g9, g10, g11, g12, g13, g14, g15⟩ :=
      goodBytes16 hg
    simp only [GoodBytes, List.forall_mem_cons]
    have b0 := xor_lt256 g0 (xor_lt256 (sbox_lt g13) hrc)
    have b1 := xor_lt256 g1 (sbox_lt g14)
    have b2 := xor_lt256 g2 (sbox_lt g15)
    have b3 := xor_lt256 g3 (sbox_lt g12)
    have b4 := xor_lt256 g4 b0
    have b5 := xor_lt256 g5 b1
    have b6 := xor_lt256 g6 b2
    have b7 := xor_lt256 g7 b3
    have b8 := xor_lt256 g8 b4
    have b9 := xor_lt256 g9 b5
    have b10 := xor_lt256 g10 b6
    have b11 := xor_lt256 g11 b7
    have b12 := xor_lt256 g12 b8
    have b13 := xor_lt256 g13 b9
    have b14 := xor_lt256 g14 b10
    have b15 := xor_lt256 g15 b11
    exact ⟨b0, b1, b2, b3, b4, b5, b6, b7, b8, b9, b10, b11, b12, b13, b14, b15,
      List.forall_mem_nil _⟩
  · exact hg

theorem roundKeysAux_good :
    ∀ (n : Nat) (rk : List Nat) (rc : Nat), rk.length = 16 → GoodBytes rk → rc < 256 →
      ∀ k ∈ roundKeysAux n rk rc, k.length = 16 ∧ GoodBytes k := by
  intro n
  induction n with
  | zero =>
      intro rk rc hl hg _ k hk
      simp only [roundKeysAux, List.mem_singleton] at hk
      subst hk
      exact ⟨hl, hg⟩
  | succ n ih =>
      intro rk rc hl hg hrc k hk
      simp only [roundKeysAux, List.mem_cons] at hk
      rcases hk with rfl | hk
      · exact ⟨hl, hg⟩
      · exact ih (nextRoundKey rk rc) (xtime rc) (nextRoundKey_length rc hl)
          (nextRoundKey_good hg hrc) (xtime_lt hrc) k hk

theorem encRounds_closure :
    ∀ (rks : List (List Nat)) (s : List Nat),
      (∀ rk ∈ rks, rk.length = 16 ∧ GoodBytes rk) → s.length = 16 → GoodBytes s →
      (encRounds rks s).length = 16 ∧ GoodBytes (encRounds rks s) := by
  intro rks
  induction rks with
  | nil => intro s _ hs hg; exact ⟨hs, hg⟩
  | cons rk rks ih =>
      intro s hks hs hg
      have hrk := hks rk (by simp)
      have h1 : (subBytes s).length = 16 := by rw [subBytes_length, hs]
      have g1 : GoodBytes (subBytes s) := subBytes_good hg
      have h2 : (shiftRows (subBytes s)).length = 16 := by rw [shiftRows_length, h1]
      have g2 : GoodBytes (shiftRows (subBytes s)) := shiftRows_good g1
      cases rks with
      | nil =>
          show (addRoundKey rk (shiftRows (subBytes s))).length = 16 ∧
            GoodBytes (addRoundKey rk (shiftRows (subBytes s)))
          constructor
          · rw [addRoundKey_length, h2, hrk.1]; simp
          · exact addRoundKey_good hrk.2 g2
      | cons rk2 rest =>
          have h3 : (mixColumns (shiftRows (subBytes s))).length = 16 := by
            rw [mixColumns_length, h2]
          have g3 : GoodBytes (mixColumns (shiftRows (subBytes s))) := mixColumns_good g2
          have h4 : (addRoundKey rk (mixColumns (shiftRows (subBytes s)))).length = 16 := by
            rw [addRoundKey_length, h3, hrk.1]; simp
          have g4 : GoodBytes (addRoundKey rk (mixColumns (shiftRows (subBytes s)))) :=
            addRoundKey_good hrk.2 g3
          exact ih _ (fun x hx => hks x (by simp [hx])) h4 g4

theorem decRounds_encRounds :
    ∀ (rks : List (List Nat)) (s : List Nat),
      (∀ rk ∈ rks, rk.length = 16 ∧ GoodBytes rk) → s.length = 16 → GoodBytes s →
      decRounds rks (encRounds rks s) = s := by
  intro rks
  induction rks with
  | nil => intro s _ _ _; rfl
  | cons rk rks ih =>
      intro s hks hs hg
      have hrk := hks rk (by simp)
      have h1 : (subBytes s).length = 16 := by rw [subBytes_length, hs]
      have g1 : GoodBytes (subBytes s) := subBytes_good hg
      have h2 : (shiftRows (subBytes s)).length = 16 := by rw [shiftRows_length, h1]
      have g2 : GoodBytes (shiftRows (subBytes s)) := shiftRows_good g1
      cases rks with
      | nil =>
          show invSubBytes (invShiftRows
            (addRoundKey rk (addRoundKey rk (shiftRows (subBytes s))))) = s
          rw [addRoundKey_addRoundKey (by rw [h2, hrk.1]),
            invShiftRows_shiftRows h1, invSubBytes_subBytes hg]
      | cons rk2 rest =>
          have h3 : (mixColumns (shiftRows (subBytes s))).length = 16 := by
            rw [mixColumns_length, h2]
          have g3 : GoodBytes (mixColumns (shiftRows (subBytes s))) := mixColumns_good g2
          have h4 : (addRoundKey rk (mixColumns (shiftRows (subBytes s)))).length = 16 := by
            rw [addRoundKey_length, h3, hrk.1]; simp
          have g4 : GoodBytes (addRoundKey rk (mixColumns (shiftRows (subBytes s)))) :=
            addRoundKey_good hrk.2 g3
          show invSubBytes (invShiftRows (invMixColumns (addRoundKey rk
            (decRounds (rk2 :: rest)
              (encRounds (rk2 :: rest)
                (addRoundKey rk (mixColumns (shiftRows (subBytes s))))))))) = s
          rw [ih _ (fun x hx => hks x (by simp [hx])) h4 g4,
            addRoundKey_addRoundKey (by rw [h3, hrk.1]),
            invMixColumns_mixColumns h2 g2,
            invShiftRows_shiftRows h1, invSubBytes_subBytes hg]

theorem roundKeys_eq (key : List Nat) :
    roundKeys key = key :: roundKeysAux 9 (nextRoundKey key 1) (xtime 1) := rfl

/-- AES-128 block decryption inverts AES-128 block encryption. -/
theorem aesDecryptBlock_aesEncryptBlock {key b : List Nat} (hkl : key.length = 16)
    (hkg : GoodBytes key) (hbl : b.length = 16) (hbg : GoodBytes b) :
    aesDecryptBlock key (aesEncryptBlock key b) = b := by
  unfold aesEncryptBlock aesDecryptBlock
  rw [roundKeys_eq]
  have hall : ∀ k ∈ roundKeysAux 9 (nextRoundKey key 1) (xtime 1),
      k.length = 16 ∧ GoodBytes k :=
    roundKeysAux_good 9 _ _ (nextRoundKey_length 1 hkl) (nextRoundKey_good hkg (by omega))
      (xtime_lt (by omega))
  have h0 : (addRoundKey key b).length = 16 := by rw [addRoundKey_length, hbl, hkl]; simp
  have g0 : GoodBytes (addRoundKey key b) := addRoundKey_good hkg hbg
  show addRoundKey key (decRounds _ (encRounds _ (addRoundKey key b))) = b
  rw [decRounds_encRounds _ _ hall h0 g0,
    addRoundKey_addRoundKey (by rw [hbl, hkl])]

theorem aesEncryptBlock_closure {key b : List Nat} (hkl : key.length = 16)
    (hkg : GoodBytes key) (hbl : b.length = 16) (hbg : GoodBytes b) :
    (aesEncryptBlock key b).length = 16 ∧ GoodBytes (aesEncryptBlock key b) := by
  unfold aesEncryptBlock
  rw [roundKeys_eq]
  have hall : ∀ k ∈ roundKeysAux 9 (nextRoundKey key 1) (xtime 1),
      k.length = 16 ∧ GoodBytes k :=
    roundKeysAux_good 9 _ _ (nextRoundKey_length 1 hkl) (nextRoundKey_good hkg (by omega))
      (xtime_lt (by omega))
  have h0 : (addRoundKey key b).length = 16 := by rw [addRoundKey_length, hbl, hkl]; simp
  have g0 : GoodBytes (addRoundKey key b) := addRoundKey_good hkg hbg
  exact encRounds_closure _ _ hall h0 g0

theorem pkcs7pad_length (l : List Nat) :
    (pkcs7pad l).length = l.length + (16 - l.length % 16) := by
  simp [pkcs7pad]

theorem pkcs7pad_good {l : List Nat} (hg : GoodBytes l) : GoodBytes (pkcs7pad l) := by
  intro x hx
  simp only [pkcs7pad, List.mem_append] at hx
  rcases hx with hx | hx
  · exact hg x hx
  · have := List.eq_of_mem_replicate hx
    omega

theorem pkcs7unpad_pkcs7pad (l : List Nat) : pkcs7unpad (pkcs7pad l) = some l := by
  unfold pkcs7pad pkcs7unpad
  have hk1 : 1 ≤ 16 - l.length % 16 := by omega
  have hlast : (l ++ List.replicate (16 - l.length % 16) (16 - l.length % 16)).getLast?
      = some (16 - l.length % 16) := by
    rw [List.getLast?_append, List.getLast?_replicate]
    rw [if_neg (by omega)]
    rfl
  have hidx : (l ++ List.replicate (16 - l.length % 16) (16 - l.length % 16)).length
      - (16 - l.length % 16) = l.length := by simp
  simp only [hlast]
  rw [if_pos]
  · rw [hidx, List.take_left]
  · refine ⟨hk1, by omega, by simp, ?_⟩
    rw [hidx, List.drop_left]
    simp

theorem toBlocks_nil : toBlocks [] = [] := by
  rw [toBlocks]
  rfl

theorem toBlocks_eq_cons {l : List Nat} (h : l ≠ []) :
    toBlocks l = l.take 16 :: toBlocks (l.drop 16) := by
  rw [toBlocks, dif_neg h]

theorem toBlocks_flatten (l : List Nat) : (toBlocks l).flatten = l := by
  by_cases h : l = []
  · rw [h, toBlocks_nil]; rfl
  · rw [toBlocks_eq_cons h]
    simp only [List.flatten_cons]
    rw [toBlocks_flatten (l.drop 16)]
    exact List.take_append_drop 16 l
termination_by l.length
decreasing_by
  simp only [List.length_drop]
  have : 0 < l.length := List.length_pos.mpr h
  omega

theorem toBlocks_length16 (l : List Nat) (hmod : l.length % 16 = 0) :
    ∀ b ∈ toBlocks l, b.length = 16 := by
  by_cases h : l = []
  · rw [h, toBlocks_nil]; intro b hb; simp at hb
  · intro b hb
    have hpos : 0 < l.length := List.length_pos.mpr h
    have h16 : 16 ≤ l.length := by omega
    rw [toBlocks_eq_cons h] at hb
    simp only [List.mem_cons] at hb
    rcases hb with rfl | hb
    · simp only [List.length_take]
      omega
    · exact toBlocks_length16 (l.drop 16) (by simp only [List.length_drop]; omega) b hb
termination_by l.length
decreasing_by
  simp only [List.length_drop]
  have : 0 < l.length := List.length_pos.mpr h
  omega

theorem toBlocks_good (l : List Nat) (hg : GoodBytes l) :
    ∀ b ∈ toBlocks l, GoodBytes b := by
  by_cases h : l = []
  · rw [h, toBlocks_nil]; intro b hb; simp at hb
  · intro b hb
    rw [toBlocks_eq_cons h] at hb
    simp only [List.mem_cons] at hb
    rcases hb with rfl | hb
    · exact fun x hx => hg x ((List.take_sublist _ _).subset hx)
    · exact toBlocks_good (l.drop 16)
        (fun x hx => hg x ((List.drop_sublist _ _).subset hx)) b hb
termination_by l.length
decreasing_by
  simp only [List.length_drop]
  have : 0 < l.length := List.length_pos.mpr h
  omega

theorem toBlocks_flatten_inv :
    ∀ L : List (List Nat), (∀ b ∈ L, b.length = 16) → toBlocks L.flatten = L := by
  intro L
  induction L with
  | nil => intro _; rw [toBlocks]; simp
  | cons b L ih =>
      intro h
      have hb : b.length = 16 := h b (by simp)
      have hbne : b ≠ [] := by
        intro he
        rw [he] at hb
        simp at hb
      have hne : (b :: L).flatten ≠ [] := by
        simp only [List.flatten_cons]
        intro he
        rcases List.append_eq_nil.mp he with ⟨h1, _⟩
        exact hbne h1
      rw [List.flatten_cons, toBlocks_eq_cons (by simpa using hne)]
      rw [List.take_left' hb, List.drop_left' hb]
      rw [ih (fun x hx => h x (by simp [hx]))]

theorem xorBytes_cancel {a p : List Nat} (h : a.length = p.length) :
    xorBytes (xorBytes a p) p = a :=
  addRoundKey_addRoundKey h

theorem xorBytes_length (a b : List Nat) :
    (xorBytes a b).length = min a.length b.length :=
  List.length_zipWith _ _ _

theorem xorBytes_good {a b : List Nat} (hga : GoodBytes a) (hgb : GoodBytes b) :
    GoodBytes (xorBytes a b) :=
  addRoundKey_good hgb hga

theorem cbcEncBlocks_length (key : List Nat) :
    ∀ (bs : List (List Nat)) (prev : List Nat),
      (cbcEncBlocks key prev bs).length = bs.length := by
  intro bs
  induction bs with
  | nil => intro prev; rfl
  | cons b bs ih => intro prev; simp only [cbcEncBlocks, List.length_cons, ih]

theorem cbcEncBlocks_closure {key : List Nat} (hkl : key.length = 16)
    (hkg : GoodBytes key) :
    ∀ (bs : List (List Nat)) (prev : List Nat), prev.length = 16 → GoodBytes prev →
      (∀ b ∈ bs, b.length = 16 ∧ GoodBytes b) →
      ∀ c ∈ cbcEncBlocks key prev bs, c.length = 16 ∧ GoodBytes c := by
  intro bs
  induction bs with
  | nil =>
      intro prev _ _ _ c hc
      rw [show cbcEncBlocks key prev [] = [] from rfl] at hc
      simp at hc
  | cons b bs ih =>
      intro prev hpl hpg hbs c hc
      have hb := hbs b (by simp)
      have hxl : (xorBytes b prev).length = 16 := by
        rw [xorBytes_length, hb.1, hpl]; simp
      have hxg : GoodBytes (xorBytes b prev) := xorBytes_good hb.2 hpg
      have henc := aesEncryptBlock_closure hkl hkg hxl hxg
      rw [show cbcEncBlocks key prev (b :: bs)
          = aesEncryptBlock key (xorBytes b prev)
            :: cbcEncBlocks key (aesEncryptBlock key (xorBytes b prev)) bs from rfl,
        List.mem_cons] at hc
      cases hc with
      | inl h => exact h ▸ henc
      | inr h => exact ih _ henc.1 henc.2 (fun x hx => hbs x (by simp [hx])) c h

theorem cbcDecBlocks_cbcEncBlocks {key : List Nat} (hkl : key.length = 16)
    (hkg : GoodBytes key) :
    ∀ (bs : List (List Nat)) (prev : List Nat), prev.length = 16 → GoodBytes prev →
      (∀ b ∈ bs, b.length = 16 ∧ GoodBytes b) →
      cbcDecBlocks key prev (cbcEncBlocks key prev bs) = bs := by
  intro bs
  induction bs with
  | nil => intro prev _ _ _; rfl
  | cons b bs ih =>
      intro prev hpl hpg hbs
      have hb := hbs b (by simp)
      have hxl : (xorBytes b prev).length = 16 := by
        rw [xorBytes_length, hb.1, hpl]; simp
      have hxg : GoodBytes (xorBytes b prev) := xorBytes_good hb.2 hpg
      have henc := aesEncryptBlock_closure hkl hkg hxl hxg
      show xorBytes (aesDecryptBlock key (aesEncryptBlock key (xorBytes b prev))) prev
          :: cbcDecBlocks key (aesEncryptBlock key (xorBytes b prev))
            (cbcEncBlocks key (aesEncryptBlock key (xorBytes b prev)) bs) = b :: bs
      rw [aesDecryptBlock_aesEncryptBlock hkl hkg hxl hxg,
        xorBytes_cancel (by rw [hb.1, hpl]),
        ih _ henc.1 henc.2 (fun x hx => hbs x (by simp [hx]))]

theorem flatten_length16 :
    ∀ L : List (List Nat), (∀ b ∈ L, b.length = 16) → L.flatten.length = 16 * L.length := by
  intro L
  induction L with
  | nil => intro _; rfl
  | cons b L ih =>
      intro h
      simp only [List.flatten_cons, List.length_append, List.length_cons,
        h b (by simp), ih (fun x hx => h x (by simp [hx]))]
      ring

/-- CBC decryption inverts CBC encryption under the same key and IV. -/
theorem cbcDecrypt_cbcEncrypt {key iv data : List Nat} (hkl : key.length = 16)
    (hkg : GoodBytes key) (hil : iv.length = 16) (hig : GoodBytes iv)
    (hdg : GoodBytes data) : cbcDecrypt key iv (cbcEncrypt key iv data) = some data := by
  have hplen := pkcs7pad_length data
  have hpmod : (pkcs7pad data).length % 16 = 0 := by rw [hplen]; omega
  have hppos : 0 < (pkcs7pad data).length := by rw [hplen]; omega
  have hpg : GoodBytes (pkcs7pad data) := pkcs7pad_good hdg
  have hblocks : ∀ b ∈ toBlocks (pkcs7pad data), b.length = 16 ∧ GoodBytes b :=
    fun b hb => ⟨toBlocks_length16 _ hpmod b hb, toBlocks_good _ hpg b hb⟩
  have hct : ∀ c ∈ cbcEncBlocks key iv (toBlocks (pkcs7pad data)),
      c.length = 16 ∧ GoodBytes c :=
    cbcEncBlocks_closure hkl hkg _ iv hil hig hblocks
  have hctlen : (cbcEncBlocks key iv (toBlocks (pkcs7pad data))).flatten.length
      = 16 * (toBlocks (pkcs7pad data)).length := by
    rw [flatten_length16 _ (fun c hc => (hct c hc).1), cbcEncBlocks_length]
  have hbpos : 0 < (toBlocks (pkcs7pad data)).length := by
    rw [toBlocks_eq_cons (by intro he; rw [he] at hppos; simp at hppos)]
    simp
  unfold cbcEncrypt cbcDecrypt
  rw [if_neg (by rw [hctlen]; omega)]
  rw [toBlocks_flatten_inv _ (fun c hc => (hct c hc).1),
    cbcDecBlocks_cbcEncBlocks hkl hkg _ iv hil hig hblocks,
    toBlocks_flatten, pkcs7unpad_pkcs7pad]

theorem b64Val_b64Char : ∀ n : Fin 64, b64Val (b64Char n.val) = some n.val := by decide

theorem b64Char_ne_eq : ∀ n : Fin 64, b64Char n.val ≠ '=' := by decide

theorem b64Val_b64Char' {n : Nat} (h : n < 64) : b64Val (b64Char n) = some n :=
  b64Val_b64Char ⟨n, h⟩

theorem b64Char_ne' {n : Nat} (h : n < 64) : b64Char n ≠ '=' :=
  b64Char_ne_eq ⟨n, h⟩

theorem b64DecodeChars_b64EncodeChars :
    ∀ l : List Nat, (∀ b ∈ l, b < 256) → b64DecodeChars (b64EncodeChars l) = some l := by
  intro l hg
  match l with
  | [] => rfl
  | [b0] =>
      have h0 : b0 < 256 := hg b0 (by simp)
      rw [show b64EncodeChars [b0] = [b64Char (b0 / 4), b64Char (b0 % 4 * 16), '=', '=']
        from rfl]
      rw [show ∀ c0 c1 : Char, b64DecodeChars [c0, c1, '=', '='] =
        (match b64Val c0, b64Val c1 with
         | some v0, some v1 => some [v0 * 4 + v1 / 16]
         | _, _ => none) from fun c0 c1 => by
          rw [b64DecodeChars]
          cases b64Val c0 <;> cases b64Val c1 <;> simp]
      rw [b64Val_b64Char' (by omega), b64Val_b64Char' (by omega)]
      simp only [Option.some.injEq, List.cons.injEq, and_true]
      omega
  | [b0, b1] =>
      have h0 : b0 < 256 := hg b0 (by simp)
      have h1 : b1 < 256 := hg b1 (by simp)
      rw [show b64EncodeChars [b0, b1] = [b64Char (b0 / 4), b64Char (b0 % 4 * 16 + b1 / 16),
        b64Char (b1 % 16 * 4), '='] from rfl]
      rw [b64DecodeChars]
      rw [b64Val_b64Char' (by omega), b64Val_b64Char' (by omega)]
      simp only []
      rw [if_neg (by
        intro hand
        exact b64Char_ne' (n := b1 % 16 * 4) (by omega) hand.1)]
      rw [b64Val_b64Char' (by omega)]
      simp only []
      rw [if_pos (by simp)]
      simp only [Option.some.injEq, List.cons.injEq, and_true]
      constructor
      · omega
      · omega
  | b0 :: b1 :: b2 :: rest =>
      have h0 : b0 < 256 := hg b0 (by simp)
      have h1 : b1 < 256 := hg b1 (by simp)
      have h2 : b2 < 256 := hg b2 (by simp)
      have ih := b64DecodeChars_b64EncodeChars rest (fun x hx => hg x (by simp [hx]))
      rw [show b64EncodeChars (b0 :: b1 :: b2 :: rest)
        = b64Char (b0 / 4) :: b64Char (b0 % 4 * 16 + b1 / 16)
          :: b64Char (b1 % 16 * 4 + b2 / 64) :: b64Char (b2 % 64)
          :: b64EncodeChars rest from rfl]
      rw [b64DecodeChars]
      rw [b64Val_b64Char' (by omega), b64Val_b64Char' (by omega)]
      simp only []
      rw [if_neg (by
        intro hand
        exact b64Char_ne' (n := b1 % 16 * 4 + b2 / 64) (by omega) hand.1)]
      rw [b64Val_b64Char' (by omega)]
      simp only []
      rw [if_neg (by
        intro hand
        exact b64Char_ne' (n := b2 % 64) (by omega) hand.1)]
      rw [b64Val_b64Char' (by omega), ih]
      simp only [Option.some.injEq, List.cons.injEq, and_true]
      refine ⟨by omega, by omega, by omega⟩

theorem base64Decode_base64Encode {l : List Nat} (hg : ∀ b ∈ l, b < 256) :
    base64Decode (base64Encode l) = some l :=
  b64DecodeChars_b64EncodeChars l hg

theorem md5_length (m : List Nat) : (md5 m).length = 16 := by
  unfold md5
  simp [toLE4]

theorem toLE4_good (y : Nat) : GoodBytes (toLE4 y) := by
  intro x hx
  simp only [toLE4, List.mem_cons, List.not_mem_nil, or_false] at hx
  rcases hx with h | h | h | h <;> subst h <;> omega

theorem md5_good (m : List Nat) : GoodBytes (md5 m) := by
  intro x hx
  simp only [md5, List.mem_append] at hx
  rcases hx with ((h | h) | h) | h <;> exact toLE4_good _ x h

theorem hexEncode_length (l : List Nat) : (hexEncode l).length = 2 * l.length := by
  induction l with
  | nil => rfl
  | cons b t ih =>
      simp only [hexEncode, List.map_cons, List.flatten_cons, List.length_append] at *
      rw [ih]
      simp
      ring

theorem cbcEncrypt_good {key iv data : List Nat} (hkl : key.length = 16)
    (hkg : GoodBytes key) (hil : iv.length = 16) (hig : GoodBytes iv)
    (hdg : GoodBytes data) : GoodBytes (cbcEncrypt key iv data) := by
  intro x hx
  unfold cbcEncrypt at hx
  rw [List.mem_flatten] at hx
  obtain ⟨c, hc, hxc⟩ := hx
  have hblocks : ∀ b ∈ toBlocks (pkcs7pad data), b.length = 16 ∧ GoodBytes b :=
    fun b hb => ⟨toBlocks_length16 _ (by rw [pkcs7pad_length]; omega) b hb,
      toBlocks_good _ (pkcs7pad_good hdg) b hb⟩
  exact (cbcEncBlocks_closure hkl hkg _ iv hil hig hblocks c hc).2 x hxc

/-! ## Claims C1 and C2: the cipher envelope -/

/-- Claim C1: for every secret string, the cipher key used by both
`encrypt` and `decrypt` is the raw 16-byte binary MD5 digest of the
secret's UTF-8 bytes — never the 32-byte hex-string encoding of it — and
the selected cipher is AES with a 128-bit key in CBC mode with PKCS7
padding: cipher selection (`createDecipheriv 'aes-128-cbc'`) succeeds
with the raw digest and fails with the hex encoding. -/
theorem claim_C1 (apiKey iv : List Nat) (hiv : iv.length = 16) :
    (md5 apiKey).length = 16 ∧
    (hexEncode (md5 apiKey)).length = 32 ∧
    (createDecipheriv "aes-128-cbc" (md5 apiKey) iv).isSome = true ∧
    createDecipheriv "aes-128-cbc" (hexEncode (md5 apiKey)) iv = none ∧
    (∀ plainText, encrypt plainText apiKey iv
        = { data := cbcEncrypt (md5 apiKey) iv plainText, iv := iv }) ∧
    (∀ encryptedData ivStr ivBuffer cipherText,
      base64Decode ivStr = some ivBuffer → base64Decode encryptedData = some cipherText →
      ivBuffer.length = 16 →
      decrypt encryptedData apiKey ivStr = cbcDecrypt (md5 apiKey) ivBuffer cipherText) := by
  have hl := md5_length apiKey
  refine ⟨hl, by rw [hexEncode_length, hl], ?_, ?_, fun _ => rfl, ?_⟩
  · unfold createDecipheriv
    rw [if_pos ⟨rfl, hl, hiv⟩]
    rfl
  · unfold createDecipheriv
    rw [if_neg]
    intro hand
    have h2 := hand.2.1
    rw [hexEncode_length, hl] at h2
    omega
  · intro encryptedData ivStr ivBuffer cipherText hdecIv hdecEd hivb
    unfold decrypt
    rw [hdecIv, hdecEd]
    show (match createDecipheriv "aes-128-cbc" (md5 apiKey) ivBuffer with
          | some ctx => cbcDecrypt ctx.key ctx.iv cipherText
          | none => none) = cbcDecrypt (md5 apiKey) ivBuffer cipherText
    rw [show createDecipheriv "aes-128-cbc" (md5 apiKey) ivBuffer
        = some { key := md5 apiKey, iv := ivBuffer } from by
      unfold createDecipheriv
      rw [if_pos ⟨rfl, hl, hivb⟩]]

/-- Witness for claim C1 at a concrete secret and IV. -/
theorem claim_C1_witness :
    (List.replicate 16 0 : List Nat).length = 16 ∧
    ((md5 [1, 2, 3]).length = 16 ∧
    (hexEncode (md5 [1, 2, 3])).length = 32 ∧
    (createDecipheriv "aes-128-cbc" (md5 [1, 2, 3]) (List.replicate 16 0)).isSome = true ∧
    createDecipheriv "aes-128-cbc" (hexEncode (md5 [1, 2, 3])) (List.replicate 16 0)
      = none ∧
    (∀ plainText, encrypt plainText [1, 2, 3] (List.replicate 16 0)
        = { data := cbcEncrypt (md5 [1, 2, 3]) (List.replicate 16 0) plainText,
            iv := List.replicate 16 0 }) ∧
    (∀ encryptedData ivStr ivBuffer cipherText,
      base64Decode ivStr = some ivBuffer → base64Decode encryptedData = some cipherText →
      ivBuffer.length = 16 →
      decrypt encryptedData [1, 2, 3] ivStr
        = cbcDecrypt (md5 [1, 2, 3]) ivBuffer cipherText)) :=
  ⟨by decide, claim_C1 [1, 2, 3] (List.replicate 16 0) (by decide)⟩

/-- Claim C2: for every plaintext string `P` and every secret `S`, calling
`decrypt` on the base64 ciphertext produced by `encrypt P S`, with the
same secret `S` and the base64 IV returned by that same `encrypt` call,
yields exactly `P` (strings modelled by their UTF-8 bytes; the fresh
random IV of the `encrypt` call is the 16-byte `iv` parameter). -/
theorem claim_C2 (P S iv : List Nat) (hP : ∀ b ∈ P, b < 256) (hS : ∀ b ∈ S, b < 256)
    (hiv : iv.length = 16) (hivg : ∀ b ∈ iv, b < 256) :
    decrypt (base64Encode (encrypt P S iv).data) S (base64Encode (encrypt P S iv).iv)
      = some P := by
  have hkl := md5_length S
  have hkg := md5_good S
  have hctg : GoodBytes (cbcEncrypt (md5 S) iv P) := cbcEncrypt_good hkl hkg hiv hivg hP
  show decrypt (base64Encode (cbcEncrypt (md5 S) iv P)) S (base64Encode iv) = some P
  unfold decrypt
  rw [base64Decode_base64Encode hivg, base64Decode_base64Encode hctg]
  show (match createDecipheriv "aes-128-cbc" (md5 S) iv with
        | some ctx => cbcDecrypt ctx.key ctx.iv (cbcEncrypt (md5 S) iv P)
        | none => none) = some P
  rw [show createDecipheriv "aes-128-cbc" (md5 S) iv = some { key := md5 S, iv := iv }
      from by
    unfold createDecipheriv
    rw [if_pos ⟨rfl, hkl, hiv⟩]]
  exact cbcDecrypt_cbcEncrypt hkl hkg hiv hivg hP

/-- Witness for claim C2: round-trip of a concrete plaintext, secret
and IV. -/
theorem claim_C2_witness :
    (∀ b ∈ [104, 105], b < 256) ∧ (∀ b ∈ [115, 101, 99], b < 256) ∧
    ([0, 1, 2, 3, 4, 5, 6, 7, 8, 9, 10, 11, 12, 13, 14, 15] : List Nat).length = 16 ∧
    (∀ b ∈ [0, 1, 2, 3, 4, 5, 6, 7, 8, 9, 10, 11, 12, 13, 14, 15], b < 256) ∧
    decrypt
      (base64Encode
        (encrypt [104, 105] [115, 101, 99]
          [0, 1, 2, 3, 4, 5, 6, 7, 8, 9, 10, 11, 12, 13, 14, 15]).data)
      [115, 101, 99]
      (base64Encode
        (encrypt [104, 105] [115, 101, 99]
          [0, 1, 2, 3, 4, 5, 6, 7, 8, 9, 10, 11, 12, 13, 14, 15]).iv)
      = some [104, 105] :=
  ⟨by decide, by decide, by decide, by decide,
    claim_C2 [104, 105] [115, 101, 99]
      [0, 1, 2, 3, 4, 5, 6, 7, 8, 9, 10, 11, 12, 13, 14, 15]
      (by decide) (by decide) (by decide) (by decide)⟩

/-- Claim C3: for every mDNS service record and unencrypted device, the
payload handed to the JSON parser is the in-order concatenation of the
`data1`..`data4` TXT fragments, each later fragment appended only while
every earlier one is present (so a missing `data2` stops the
reassembly even when `data3` is advertised), in both variants of
`extractDataFromDnsService`. -/
theorem claim_C3 :
    (∀ dec service device s1 j,
      svcLookup service "data1" = some (.str s1) →
      svcLookup service "data2" = none →
      device.encrypted = false →
      parseJson s1 = some j →
      extractDataWith dec service device = (.ok (some j), []) ∧
      extractDataCommonWith dec service device = (.ok j, [])) ∧
    (∀ dec service device s1 s2 j,
      svcLookup service "data1" = some (.str s1) →
      svcLookup service "data2" = some (.str s2) →
      svcLookup service "data3" = none →
      device.encrypted = false →
      parseJson (s1 ++ s2) = some j →
      extractDataWith dec service device = (.ok (some j), []) ∧
      extractDataCommonWith dec service device = (.ok j, [])) ∧
    (∀ service s1 s2 s3 s4,
      svcLookup service "data1" = some (.str s1) →
      svcLookup service "data2" = some (.str s2) →
      svcLookup service "data3" = some (.str s3) →
      svcLookup service "data4" = some (.str s4) →
      assembleData service = .str (((s1 ++ s2) ++ s3) ++ s4)) ∧
    (∀ service,
      svcLookup service "data2" = none →
      assembleData service = svcGet service "data1") := by
  have hparse_empty : parseJson "" = none := rfl
  refine ⟨?_, ?_, ?_, ?_⟩
  · intro dec service device s1 j h1 h2 henc hparse
    have hget1 : svcGet service "data1" = .str s1 := by simp [svcGet, h1]
    have hhas2 : svcHas service "data2" = false := by simp [svcHas, h2]
    have hasm : assembleData service = .str s1 := by
      simp [assembleData, hget1, hhas2]
    have hne : s1 ≠ "" := by
      intro he
      rw [he, hparse_empty] at hparse
      simp at hparse
    constructor
    · simp [extractDataWith, henc, hasm, jsTruthy, hne, jsParse, jsToString, hparse,
        Except.map]
    · simp [extractDataCommonWith, henc, hasm, jsParse, jsToString, hparse]
  · intro dec service device s1 s2 j h1 h2 h3 henc hparse
    have hget1 : svcGet service "data1" = .str s1 := by simp [svcGet, h1]
    have hget2 : svcGet service "data2" = .str s2 := by simp [svcGet, h2]
    have hhas2 : svcHas service "data2" = true := by simp [svcHas, h2]
    have hhas3 : svcHas service "data3" = false := by simp [svcHas, h3]
    have hasm : assembleData service = .str (s1 ++ s2) := by
      simp [assembleData, hget1, hget2, hhas2, hhas3, jsAdd, jsToString]
    have hne : s1 ++ s2 ≠ "" := by
      intro he
      rw [he, hparse_empty] at hparse
      simp at hparse
    constructor
    · simp [extractDataWith, henc, hasm, jsTruthy, hne, jsParse, jsToString, hparse,
        Except.map]
    · simp [extractDataCommonWith, henc, hasm, jsParse, jsToString, hparse]
  · intro service s1 s2 s3 s4 h1 h2 h3 h4
    have hget1 : svcGet service "data1" = .str s1 := by simp [svcGet, h1]
    have hget2 : svcGet service "data2" = .str s2 := by simp [svcGet, h2]
    have hget3 : svcGet service "data3" = .str s3 := by simp [svcGet, h3]
    have hget4 : svcGet service "data4" = .str s4 := by simp [svcGet, h4]
    have hhas2 : svcHas service "data2" = true := by simp [svcHas, h2]
    have hhas3 : svcHas service "data3" = true := by simp [svcHas, h3]
    have hhas4 : svcHas service "data4" = true := by simp [svcHas, h4]
    simp [assembleData, hget1, hget2, hget3, hget4, hhas2, hhas3, hhas4, jsAdd,
      jsToString]
  · intro service h2
    have hhas2 : svcHas service "data2" = false := by simp [svcHas, h2]
    simp [assembleData, hhas2]

/-- Claim C4 (amended): for every encrypted device with no configured
device key, both variants log the missing-key message and never call
`decrypt`; the `sonoffLanModeApi.ts` variant then returns `undefined`
(no crash), but the `commonApi.ts` variant goes on to call
`JSON.parse(undefined)`, which throws a `SyntaxError` rather than
returning `undefined`. -/
theorem claim_C4_amended :
    ∀ (dec : JsVal → String → JsVal → Except JsErr String) service device,
      device.encrypted = true → device.deviceKey = none →
      extractDataWith dec service device = (.ok none, [missingKeyMsg service]) ∧
      extractDataCommonWith dec service device
        = (.error .syntaxError, [missingKeyMsg service]) := by
  intro dec service device henc hkey
  have hundef : jsParse .undefined = .error .syntaxError := rfl
  constructor
  · simp [extractDataWith, henc, hkey]
  · simp [extractDataCommonWith, henc, hkey, hundef]

theorem createDeviceAccessory_encrypted (config : SonoffPlatformConfig)
    (service : MDNSService) :
    (createDeviceAccessory config service).encrypted
      = jsTruthy (svcGet service "encrypt") := by
  unfold createDeviceAccessory
  cases config.deviceKeys with
  | none => rfl
  | some keys =>
      dsimp only
      cases List.find? (fun v => decide (v.deviceId = jsToString (svcGet service "id")))
        keys <;> rfl

/-- Claim C10: for every device created from an mDNS service record with
no `encrypt` TXT key, `createDeviceAccessory` marks the device
unencrypted (`encrypt || false` is `false`), so data extraction takes
the plaintext path and never consults the decryption routine. -/
theorem claim_C10 :
    ∀ (config : SonoffPlatformConfig) (service : MDNSService),
      svcLookup service "encrypt" = none →
      (createDeviceAccessory config service).encrypted = false ∧
      ∀ dec,
        extractDataWith dec service (createDeviceAccessory config service)
          = (if jsTruthy (assembleData service) = true
              then (jsParse (assembleData service)).map some else .ok none, []) ∧
        extractDataCommonWith dec service (createDeviceAccessory config service)
          = (jsParse (assembleData service), []) := by
  intro config service henc
  have hget : svcGet service "encrypt" = .undefined := by simp [svcGet, henc]
  have hfalse : (createDeviceAccessory config service).encrypted = false := by
    rw [createDeviceAccessory_encrypted, hget]
    rfl
  refine ⟨hfalse, fun dec => ⟨?_, ?_⟩⟩
  · simp [extractDataWith, hfalse]
  · simp [extractDataCommonWith, hfalse]

/-- Counterexample to claim C4: an encrypted device with no key.  The
`commonApi.ts` variant does not return `undefined`: it throws
`SyntaxError` from `JSON.parse(undefined)`. -/
theorem claim_C4_counterexample :
    extractDataFromDnsServiceCommon svcC4 devC4
      = (Except.error JsErr.syntaxError, ["Missing api_key for encrypted device dev1"]) := by
  rfl

/-- Witness for claim C4 at the same encrypted, key-less device. -/
theorem claim_C4_witness :
    devC4.encrypted = true ∧ devC4.deviceKey = none ∧
    (extractDataFromDnsService svcC4 devC4
        = (.ok none, [missingKeyMsg svcC4]) ∧
      extractDataFromDnsServiceCommon svcC4 devC4
        = (.error .syntaxError, [missingKeyMsg svcC4])) :=
  ⟨rfl, rfl, claim_C4_amended decryptString svcC4 devC4 rfl rfl⟩

/-- Witness for claim C3: a one-fragment record and a two-fragment
record. -/
theorem claim_C3_witness :
    (svcLookup svcC3a "data1" = some (.str "[1,2]") ∧
      svcLookup svcC3a "data2" = none ∧ devC3a.encrypted = false ∧
      parseJson "[1,2]" = some (.arr [.num "1", .num "2"]) ∧
      extractDataWith decryptString svcC3a devC3a
        = (.ok (some (.arr [.num "1", .num "2"])), []) ∧
      extractDataCommonWith decryptString svcC3a devC3a
        = (.ok (.arr [.num "1", .num "2"]), [])) ∧
    (svcLookup svcC3b "data1" = some (.str "[1,") ∧
      svcLookup svcC3b "data2" = some (.str "2]") ∧
      svcLookup svcC3b "data3" = none ∧ devC3b.encrypted = false ∧
      parseJson ("[1," ++ "2]") = some (.arr [.num "1", .num "2"]) ∧
      extractDataWith decryptString svcC3b devC3b
        = (.ok (some (.arr [.num "1", .num "2"])), []) ∧
      extractDataCommonWith decryptString svcC3b devC3b
        = (.ok (.arr [.num "1", .num "2"]), [])) :=
  ⟨⟨rfl, rfl, rfl, rfl,
      claim_C3.1 decryptString svcC3a devC3a "[1,2]" (.arr [.num "1", .num "2"])
        rfl rfl rfl rfl⟩,
    ⟨rfl, rfl, rfl, rfl, rfl,
      claim_C3.2.1 decryptString svcC3b devC3b "[1," "2]" (.arr [.num "1", .num "2"])
        rfl rfl rfl rfl rfl⟩⟩

/-- Witness for claim C10 at a record with no `encrypt` TXT key. -/
theorem claim_C10_witness :
    svcLookup svcC10 "encrypt" = none ∧
    ((createDeviceAccessory { deviceKeys := none } svcC10).encrypted = false ∧
      ∀ dec,
        extractDataWith dec svcC10 (createDeviceAccessory { deviceKeys := none } svcC10)
          = (if jsTruthy (assembleData svcC10) = true
              then (jsParse (assembleData svcC10)).map some else .ok none, []) ∧
        extractDataCommonWith dec svcC10
            (createDeviceAccessory { deviceKeys := none } svcC10)
          = (jsParse (assembleData svcC10), [])) :=
  ⟨rfl, claim_C10 { deviceKeys := none } svcC10 rfl⟩

theorem buildSwitches_length (i : Nat) (l : List Bool) :
    (buildSwitches i l).length = l.length := by
  induction l generalizing i with
  | nil => rfl
  | cons b t ih => simp [buildSwitches, ih]

theorem buildSwitches_getElem (i j : Nat) (l : List Bool) :
    (buildSwitches i l)[j]? =
      l[j]?.map (fun b => { switch := if b then .On else .Off, outlet := i + j }) := by
  induction l generalizing i j with
  | nil => simp [buildSwitches]
  | cons b t ih =>
      cases j with
      | zero => simp [buildSwitches]
      | succ j =>
          rw [show buildSwitches i (b :: t)
              = { switch := if b then .On else .Off, outlet := i }
                :: buildSwitches (i + 1) t from rfl]
          simp only [List.getElem?_cons_succ, ih (i + 1) j]
          have : i + 1 + j = i + (j + 1) := by omega
          rw [this]

/-- Claim C5: in every outgoing local-command envelope built for an
info, switch, or switches request, the `sequence` field (the current
time in milliseconds) and the `selfApikey` field (fixed value 123) are
serialised as JSON strings, never as numeric JSON values. -/
theorem claim_C5 (now : Nat) (iv : List Nat) (device : DeviceConfiguration)
    (isOn : Bool) (data : StripData) :
    payloadStringlyTyped now (info now iv device) ∧
    payloadStringlyTyped now (toggleSwitchStatus now iv device isOn) ∧
    payloadStringlyTyped now (setSwitchesStatus now iv device data) := by
  refine ⟨?_, ?_, ?_⟩ <;>
    · cases hk : device.deviceKey with
      | none =>
          simp [payloadStringlyTyped, info, toggleSwitchStatus, setSwitchesStatus,
            doApiCall, hk, jsonLookup, apiPayloadJson, List.find?]
      | some key =>
          by_cases hkey : key = "" <;>
            simp [payloadStringlyTyped, info, toggleSwitchStatus, setSwitchesStatus,
              doApiCall, hk, hkey, jsonLookup, apiPayloadJson, List.find?]

/-- Claim C7: for every `setOn(outlet, value)` on a strip accessory
whose state array has `outlet` in range, the outgoing Switches command
carries the entire strip state: the rebuilt switches list has one entry
per known outlet, the entry at `outlet` holds `value`, every other
entry reflects the accessory state before the call, and `configure`,
`pulses`, `sledOnline` and `staMac` are passed through from
`initialData` unchanged. -/
theorem claim_C7 (now : Nat) (iv : List Nat) (acc : StripAccessoryState)
    (outlet : Nat) (value : Bool) (h : outlet < acc.states.length) :
    (stripAccessorySetOn now iv acc outlet value).2 =
      setSwitchesStatus now iv acc.device (stripSetOnData acc outlet value) ∧
    (stripSetOnData acc outlet value).switches.length = acc.states.length ∧
    (stripSetOnData acc outlet value).switches[outlet]? =
      some { switch := if value then .On else .Off, outlet := outlet } ∧
    (∀ j, j ≠ outlet → (stripSetOnData acc outlet value).switches[j]? =
      acc.states[j]?.map (fun b => { switch := if b then .On else .Off, outlet := j })) ∧
    (stripSetOnData acc outlet value).configure = acc.initialData.configure ∧
    (stripSetOnData acc outlet value).pulses = acc.initialData.pulses ∧
    (stripSetOnData acc outlet value).sledOnline = acc.initialData.sledOnline ∧
    (stripSetOnData acc outlet value).staMac = acc.initialData.staMac := by
  refine ⟨rfl, ?_, ?_, ?_, rfl, rfl, rfl, rfl⟩
  · simp [stripSetOnData, buildSwitches_length]
  · rw [show (stripSetOnData acc outlet value).switches
        = buildSwitches 0 (acc.states.set outlet value) from rfl,
      buildSwitches_getElem, List.getElem?_set_self (by simpa using h)]
    simp
  · intro j hj
    rw [show (stripSetOnData acc outlet value).switches
        = buildSwitches 0 (acc.states.set outlet value) from rfl,
      buildSwitches_getElem, List.getElem?_set_ne (by omega)]
    simp

/-- Witness for claim C7 at a four-outlet strip with all outlets off,
switching outlet 1 on. -/
theorem claim_C7_witness :
    1 < stripC7.states.length ∧
    ((stripAccessorySetOn 5 [] stripC7 1 true).2 =
        setSwitchesStatus 5 [] stripC7.device (stripSetOnData stripC7 1 true) ∧
      (stripSetOnData stripC7 1 true).switches.length = stripC7.states.length ∧
      (stripSetOnData stripC7 1 true).switches[1]? =
        some { switch := if true then .On else .Off, outlet := 1 } ∧
      (∀ j, j ≠ 1 → (stripSetOnData stripC7 1 true).switches[j]? =
        stripC7.states[j]?.map
          (fun b => { switch := if b then .On else .Off, outlet := j })) ∧
      (stripSetOnData stripC7 1 true).configure = stripC7.initialData.configure ∧
      (stripSetOnData stripC7 1 true).pulses = stripC7.initialData.pulses ∧
      (stripSetOnData stripC7 1 true).sledOnline = stripC7.initialData.sledOnline ∧
      (stripSetOnData stripC7 1 true).staMac = stripC7.initialData.staMac) :=
  ⟨by decide, claim_C7 5 [] stripC7 1 true (by decide)⟩

/-- Counterexample to claim C6: on the actual region-request field set,
the string the code signs differs from the descending-lexicographic
one, because `'b'.localeCompare(a)` orders case-insensitively at primary
strength: `appVersion` sorts before `appid` (v after i, case ignored),
while code-point order puts `appid` (i, 105) above `appVersion` (V, 86). -/
theorem claim_C6_counterexample :
    dataToSign (regionRequestParams "US" "1" "n" "123") ≠
      specDataToSignLexDesc (regionRequestParams "US" "1" "n" "123") ∧
    dataToSign (regionRequestParams "US" "1" "n" "123") =
      "version=6&ts=1&romVersion=11.1.2&os=iOS&nonce=n&model=iPhone10,6&imei=123&country_code=US&appVersion=3.5.3&appid=oeVkj2lYFGnJu5XUtWisfW4utiN4u9Mq" ∧
    specDataToSignLexDesc (regionRequestParams "US" "1" "n" "123") =
      "version=6&ts=1&romVersion=11.1.2&os=iOS&nonce=n&model=iPhone10,6&imei=123&country_code=US&appid=oeVkj2lYFGnJu5XUtWisfW4utiN4u9Mq&appVersion=3.5.3" := by
  refine ⟨?_, rfl, rfl⟩
  rw [show dataToSign (regionRequestParams "US" "1" "n" "123") =
      "version=6&ts=1&romVersion=11.1.2&os=iOS&nonce=n&model=iPhone10,6&imei=123&country_code=US&appVersion=3.5.3&appid=oeVkj2lYFGnJu5XUtWisfW4utiN4u9Mq" from rfl,
    show specDataToSignLexDesc (regionRequestParams "US" "1" "n" "123") =
      "version=6&ts=1&romVersion=11.1.2&os=iOS&nonce=n&model=iPhone10,6&imei=123&country_code=US&appid=oeVkj2lYFGnJu5XUtWisfW4utiN4u9Mq&appVersion=3.5.3" from rfl]
  decide

/-- Claim C6 (amended): the region-lookup signing string joins the
request fields as key=value pairs with the ampersand, in descending
order *under the default-locale collation of `localeCompare`* (which is
case-insensitive at primary strength, so `appVersion` precedes `appid`);
on the actual field set the key order is version, ts, romVersion, os,
nonce, model, imei, country_code, appVersion, appid, and on the claim's
three-field example the order is ts, nonce, country_code (descending,
not ascending), where locale and code-point order agree. -/
theorem claim_C6 (countryCode ts nonce imei : String) :
    stableSort (fun a b => decide (jsLocaleCompare b a ≤ 0))
        ((regionRequestParams countryCode ts nonce imei).map Prod.fst) =
      ["version", "ts", "romVersion", "os", "nonce", "model", "imei",
       "country_code", "appVersion", "appid"] ∧
    dataToSign (regionRequestParams countryCode ts nonce imei) =
      String.intercalate "&"
        ["version=6", "ts=" ++ ts, "romVersion=11.1.2", "os=iOS", "nonce=" ++ nonce,
         "model=iPhone10,6", "imei=" ++ imei, "country_code=" ++ countryCode,
         "appVersion=3.5.3", "appid=oeVkj2lYFGnJu5XUtWisfW4utiN4u9Mq"] ∧
    dataToSign [("country_code", countryCode), ("ts", ts), ("nonce", nonce)] =
      String.intercalate "&" ["ts=" ++ ts, "nonce=" ++ nonce, "country_code=" ++ countryCode] :=
  ⟨rfl, rfl, rfl⟩

/-- Claim C8: for every login response delivered to the success handler
(HTTP 200) whose body lacks the `at` token field, the returned promise
rejects with the no-token message and never resolves: the `reject` call
comes first, and a promise keeps its first settlement. -/
theorem claim_C8 (config : CloudSession) (resp : LoginResponse)
    (h : resp.«at» = none) :
    promiseOutcome (loginThenHandler config resp).2 =
      some (.rejected "Server did not response with an authentication token.") ∧
    ∀ r, promiseOutcome (loginThenHandler config resp).2 ≠ some (.resolved r) := by
  constructor
  · simp [loginThenHandler, promiseOutcome, h]
  · intro r
    simp [loginThenHandler, promiseOutcome, h]

/-- Witness for claim C8: a token-less response against a session that
already stored a token. -/
theorem claim_C8_witness :
    respC8.«at» = none ∧
    (promiseOutcome (loginThenHandler sessionC8 respC8).2 =
        some (.rejected "Server did not response with an authentication token.") ∧
      ∀ r, promiseOutcome (loginThenHandler sessionC8 respC8).2 ≠ some (.resolved r)) :=
  ⟨rfl, claim_C8 sessionC8 respC8 rfl⟩

/-- Claim C9 (code bug): a failed login does NOT leave the stored token
unchanged.  Because the `reject` branch does not return, the handler
still runs `this.config.authenticationToken = response.data.at`, so a
token-less response clobbers a previously stored token with `undefined`
even though the login rejects. -/
theorem claim_C9 :
    (loginThenHandler { authenticationToken := some "old-token" } { «at» := none }
      ).1.authenticationToken = none ∧
    promiseOutcome (loginThenHandler { authenticationToken := some "old-token" }
        { «at» := none }).2 =
      some (.rejected "Server did not response with an authentication token.") :=
  ⟨rfl, rfl⟩

end SonoffLan
